import Mathlib

/-!
Verification development for the `ocr-worker` repository.

The development shallowly embeds the core of the repository:

* `src/mistral.ts` — the Mistral OCR client (`callMistralOCR`) with its
  exponential-backoff retry loop (`calculateBackoff`);
* `src/job.ts` — the processing pipeline (`processJob`) with its helpers
  (`resolveJpegFile`, `replaceImageRefs`, the size check, the trimmed-text
  guard on the conditional update);
* `src/job-do.ts` — the Durable Object job state machine (`handleStart`,
  `alarm`) over the single-row SQLite job record.

External I/O (Mistral, the entity store, the progress-log sink, the workflow
handoff interpreter) is modelled by explicit outcome parameters threaded into
the functions, and every function additionally returns the trace of external
calls it performed, so that claims about "no external call happens" or
"exactly n calls happen" are statable.  JavaScript truthiness, where the
source relies on it (`if (targetFileKey)`, `a || b`, `cond ? x : y`,
`fileMeta.size && ...`), is modelled explicitly.
-/

namespace OcrWorker

/-! ## JavaScript-semantics helpers -/

/-- Truthiness of a JS `string | undefined | null` value: `undefined`, `null`
and the empty string are falsy. -/
def jsTruthyOptStr : Option String → Bool
  | none => false
  | some s => s ≠ ""

/-- Characters that JavaScript `String.prototype.trim` removes: the
ECMAScript WhiteSpace and LineTerminator sets. -/
def isJsSpace (c : Char) : Bool :=
  c ∈ ['\t', '\n', '\u000B', '\u000C', '\r', ' ', '\u00A0', '\u1680',
       '\u2000', '\u2001', '\u2002', '\u2003', '\u2004', '\u2005', '\u2006',
       '\u2007', '\u2008', '\u2009', '\u200A', '\u2028', '\u2029', '\u202F',
       '\u205F', '\u3000', '\uFEFF']

/-- JS `s.trim()`: drop leading and trailing whitespace. -/
def jsTrim (s : String) : String :=
  String.mk (((s.data.dropWhile isJsSpace).reverse.dropWhile isJsSpace).reverse)

/-- Decide whether `p` is a prefix of `l` (character lists). -/
def isPrefixOfCh : List Char → List Char → Bool
  | [], _ => true
  | _ :: _, [] => false
  | a :: as, b :: bs => a = b && isPrefixOfCh as bs

/-- Decide whether `p` occurs as a contiguous substring of `l`
(JS `String.prototype.includes`). -/
def hasSubstr : List Char → List Char → Bool
  | [], p => isPrefixOfCh p []
  | l@(_ :: rest), p => isPrefixOfCh p l || hasSubstr rest p

/-- JS `s.includes(pat)`. -/
def strIncludes (s pat : String) : Bool :=
  hasSubstr s.data pat.data

/-! ## Mistral OCR client (`src/mistral.ts`) -/

/-- Embedded image extracted by Mistral OCR (interface `MistralOCRImage`).
Coordinates absent from the response are `none` (mapped to `null` by the
source). -/
structure MistralOCRImage where
  id : String
  topLeftX : Option Int
  topLeftY : Option Int
  bottomRightX : Option Int
  bottomRightY : Option Int
  imageBase64 : Option String
deriving DecidableEq, Repr

/-- Result from Mistral OCR (interface `MistralOCRResult`). -/
structure MistralOCRResult where
  markdown : String
  images : List MistralOCRImage
deriving DecidableEq, Repr

/-- A JavaScript thrown value as observed by the catch blocks of the source:
either an `Error` instance carrying a `message`, or any other value, of which
only the `String(value)` form is ever inspected. -/
inductive JsError where
  | errInst (message : String)
  | nonError (strForm : String)
deriving DecidableEq, Repr

/-- `calculateBackoff` from `src/mistral.ts`:
`min(baseMs * 2^attempt, maxMs)` plus jitter `rand * delay * 0.25` where
`rand` is the `Math.random()` draw in `[0, 1)`.  Modelled over `ℚ` with the
jitter draw made explicit. -/
def calculateBackoff (attempt : Nat) (rand : ℚ) : ℚ :=
  let delay : ℚ := min (1000 * 2 ^ attempt) 30000
  delay + rand * delay * 0.25

/-- The jitter-free base of `calculateBackoff`. -/
def backoffBase (attempt : Nat) : ℚ :=
  min (1000 * 2 ^ attempt) 30000

/-- Expected value of `calculateBackoff attempt rand` for `rand` uniform on
`[0, 1)` (the mean of the jitter term `rand * delay * 0.25` is `delay / 8`). -/
def expectedBackoff (attempt : Nat) : ℚ :=
  backoffBase attempt * (1 + 1 / 8)

/-- Retryability classification from the catch block of `callMistralOCR`
(`src/mistral.ts:109-115`): only `Error` instances are candidates, and the
message must contain one of the five substrings. -/
def isRetryable (e : JsError) : Bool :=
  match e with
  | .errInst msg =>
      strIncludes msg "rate limit" || strIncludes msg "timeout" ||
      strIncludes msg "503" || strIncludes msg "502" || strIncludes msg "500"
  | .nonError _ => false

/-- The retry loop of `callMistralOCR` (`src/mistral.ts:70-129`).
`outcome a` is the result of the external `client.ocr.process` call on
attempt `a` (success already mapped to the `MistralOCRResult` shape, failure
the thrown value).  Returns the final result, the number of external calls
made, and the list of attempt indices after which a backoff wait
(`sleep(calculateBackoff attempt)`) happened.  `fuel` is the number of loop
iterations still permitted; it starts at `maxRetries + 1`, matching the
`for` bound, and the fuel-exhausted branch models the unreachable line 132. -/
def ocrGo (outcome : Nat → Except JsError MistralOCRResult) (maxRetries : Nat) :
    Nat → Nat → Except JsError MistralOCRResult × Nat × List Nat
  | _attempt, 0 => (.error (.errInst "Mistral OCR failed after all retries"), 0, [])
  | attempt, fuel + 1 =>
    match outcome attempt with
    | .ok r => (.ok r, 1, [])
    | .error e =>
      if attempt < maxRetries ∧ isRetryable e then
        match ocrGo outcome maxRetries (attempt + 1) fuel with
        | (res, calls, waits) => (res, calls + 1, attempt :: waits)
      else
        (.error e, 1, [])

/-- `callMistralOCR` with explicit `maxRetries`. -/
def callMistralOCR (outcome : Nat → Except JsError MistralOCRResult)
    (maxRetries : Nat) : Except JsError MistralOCRResult × Nat × List Nat :=
  ocrGo outcome maxRetries 0 (maxRetries + 1)

/-- `callMistralOCR` at its default `maxRetries = 3`. -/
def callMistralOCRDefault (outcome : Nat → Except JsError MistralOCRResult) :
    Except JsError MistralOCRResult × Nat × List Nat :=
  callMistralOCR outcome 3

/-! ## Request and job types (`src/types.ts`, `@arke-institute/rhiza`) -/

/-- Standard input following file-input-conventions.md (interface `OCRInput`). -/
structure OCRInput where
  target_file_key : Option String
deriving DecidableEq, Repr

/-- Workflow context carried by a request (`request.rhiza`).  Only the fields
the Durable Object reads are modelled. -/
structure RhizaCtx where
  id : String
  path : Option (List String)
deriving DecidableEq, Repr

/-- The fields of a `KladosRequest` that the worker reads. -/
structure KladosRequest where
  job_id : String
  target_entity : Option String
  target_collection : String
  job_collection : String
  api_base : String
  network : String
  rhiza : Option RhizaCtx
  input : OCRInput
deriving DecidableEq, Repr

/-- Job configuration passed from the worker (interface `KladosJobConfig`). -/
structure KladosJobConfig where
  agentId : String
  agentVersion : String
  authToken : String
deriving DecidableEq, Repr

/-- Result returned from `processJob` (interface `ProcessResult`). -/
structure ProcessResult where
  outputs : Option (List String)
  reschedule : Bool
deriving DecidableEq, Repr

/-- File metadata from the `properties.content` map (interface
`FileMetadata`).  `content_type` and `size` are `Option` because the runtime
JSON may omit them, and the source guards `size` with a truthiness check. -/
structure FileMetadata where
  cid : String
  content_type : Option String
  size : Option Nat
deriving DecidableEq, Repr

/-- Entity with content map in properties (interface `EntityWithContent`).
The `properties.content` record is modelled as an association list in JS
object iteration order. -/
structure EntityWithContent where
  id : String
  etype : String
  propertiesContent : Option (List (String × FileMetadata))
deriving DecidableEq, Repr

/-- The distinct failure shapes thrown by `processJob` and its helpers.  The
source throws `Error` objects; here each throw site gets its own
constructor (the human-readable message is presentation detail). -/
inductive JobError where
  | noTargetEntity
  | fetchTargetFailed
  | fileNotFound (key : String)
  | notJpeg (key : String) (got : Option String)
  | noJpegFound
  | fileTooLarge (key : String) (size : Nat)
  | downloadFailed
  | ocrThrown (e : JsError)
  | createImageFailed (ref : String)
  | getTipFailed
  | updateFailed
deriving DecidableEq, Repr

/-! ## Pipeline helpers (`src/job.ts`) -/

/-- Maximum file size for OCR processing (20MB), `src/job.ts:24`. -/
def MAX_FILE_SIZE : Nat := 20 * 1024 * 1024

/-- `listEntityFiles` (`src/job.ts:67-78`): flatten the entity's
`properties.content` map into a key/content_type/size list. -/
def listEntityFiles (target : EntityWithContent) :
    List (String × Option String × Option Nat) :=
  match target.propertiesContent with
  | none => []
  | some content => content.map (fun e => (e.1, e.2.content_type, e.2.size))

/-- `resolveJpegFile` (`src/job.ts:87-122`).  The `if (targetFileKey)` guard
uses JS truthiness, so an empty-string key falls through to auto-detection.
The `target.properties.content![key]` lookup is modelled with a default that
is never reached when the preceding `find?` succeeded. -/
def resolveJpegFile (target : EntityWithContent) (targetFileKey : Option String) :
    Except JobError (String × FileMetadata) :=
  let files := listEntityFiles target
  let content := target.propertiesContent.getD []
  if jsTruthyOptStr targetFileKey then
    let k := targetFileKey.getD ""
    match files.find? (fun f => f.1 = k) with
    | none => .error (.fileNotFound k)
    | some f =>
      if f.2.1 ≠ some "image/jpeg" then
        .error (.notJpeg k f.2.1)
      else
        .ok (k, (content.lookup k).getD ⟨"", none, none⟩)
  else
    match files.find? (fun f => f.2.1 = some "image/jpeg") with
    | some f => .ok (f.1, (content.lookup f.1).getD ⟨"", none, none⟩)
    | none => .error .noJpegFound

/-- The size guard of `processJob` step 3 (`src/job.ts:307`):
`fileMeta.size && fileMeta.size > MAX_FILE_SIZE` — a missing/`null`/`0` size
is falsy, so the guard only fires on a present, non-zero, strictly too-large
declared size. -/
def sizeCheckFails (size : Option Nat) : Bool :=
  match size with
  | none => false
  | some n => decide (n ≠ 0) && decide (n > MAX_FILE_SIZE)

/-! ## Reference rewriter (`src/job.ts:151-164`) -/

/-- Lowercase a character list (ASCII case-insensitivity of the `/i` flag). -/
def lowerL (l : List Char) : List Char := l.map Char.toLower

/-- Case-insensitive suffix test (`suf` given lowercase). -/
def endsWithCI (l suf : List Char) : Bool :=
  decide (suf.length ≤ l.length ∧ (lowerL l).drop (l.length - suf.length) = suf)

/-- `src.replace(/\.(jpeg|jpg|png)$/i, '')`: strip one trailing image-format
suffix, case-insensitively.  At most one of the three alternatives can match
a given string, so testing them in order is equivalent to the regex. -/
def stripImageSuffix (src : List Char) : List Char :=
  if endsWithCI src ".jpeg".data then src.take (src.length - 5)
  else if endsWithCI src ".jpg".data then src.take (src.length - 4)
  else if endsWithCI src ".png".data then src.take (src.length - 4)
  else src

/-- JS `a || b` on `Map.get` results: an `undefined` or empty-string left
operand falls through to the right operand. -/
def jsOrStr (a b : Option String) : Option String :=
  match a with
  | some s => if s = "" then b else some s
  | none => b

/-- JS `Map.set`: overwrite an existing key in place, else append. -/
def jsMapSet : List (String × String) → String → String → List (String × String)
  | [], k, v => [(k, v)]
  | (k', v') :: rest, k, v =>
    if k' = k then (k, v) :: rest else (k', v') :: jsMapSet rest k v

/-- The negated character class `[^x]` of the regex, as a `Bool` predicate. -/
def notChar (x : Char) (c : Char) : Bool := c ≠ x

/-- One step of the global regex scan for `/!\[([^\]]*)\]\(([^)]+)\)/g`: try
to match the pattern at the head of the character list; on success return the
two capture groups and the remainder.  The character classes exclude the
closing delimiters, so the regex is equivalent to this deterministic
longest-run scanner. -/
def tryMatch (l : List Char) : Option (List Char × List Char × List Char) :=
  match l with
  | c1 :: c2 :: rest =>
    if c1 = '!' ∧ c2 = '[' then
      let alt := rest.takeWhile (notChar ']')
      match rest.dropWhile (notChar ']') with
      | d1 :: d2 :: r2 =>
        if d1 = ']' ∧ d2 = '(' then
          let src := r2.takeWhile (notChar ')')
          if src = [] then none
          else
            match r2.dropWhile (notChar ')') with
            | e1 :: r4 => if e1 = ')' then some (alt, src, r4) else none
            | [] => none
        else none
      | _ => none
    else none
  | _ => none

/-- The characters of one full match `![alt](src)`. -/
def matchChars (alt src : List Char) : List Char :=
  '!' :: '[' :: (alt ++ ']' :: '(' :: (src ++ [')']))

/-- The replacement callback of `replaceImageRefs` (`src/job.ts:157-162`):
strip the image suffix from `src`, look up the stripped form and then the raw
form (with JS `||` falsiness), and replace only when the final value is
truthy; otherwise return the original match. -/
def rewriteMatch (idMap : List (String × String)) (alt src : List Char) :
    List Char :=
  let srcStr := String.mk src
  let baseRef := String.mk (stripImageSuffix src)
  let entityId := jsOrStr (idMap.lookup baseRef) (idMap.lookup srcStr)
  if jsTruthyOptStr entityId then
    '!' :: '[' :: (alt ++ ']' :: '(' ::
      (("arke:" ++ entityId.getD "").data ++ [')']))
  else
    matchChars alt src

/-- The global-replace scan: at each position try the pattern; on a match,
emit the (possibly rewritten) replacement and continue after the match,
otherwise copy one character.  `fuel` bounds the recursion and is always at
least the list length at every call. -/
def scanGo (idMap : List (String × String)) : Nat → List Char → List Char
  | 0, l => l
  | _fuel + 1, [] => []
  | fuel + 1, c :: rest =>
    match tryMatch (c :: rest) with
    | some (alt, src, rest') => rewriteMatch idMap alt src ++ scanGo idMap fuel rest'
    | none => c :: scanGo idMap fuel rest

/-- `replaceImageRefs` (`src/job.ts:151-164`). -/
def replaceImageRefs (markdown : String) (imageIdMap : List (String × String)) :
    String :=
  String.mk (scanGo imageIdMap markdown.data.length markdown.data)

/-! ## The processing pipeline (`src/job.ts:261-457`) -/

/-- External calls performed by `processJob`, in order. -/
inductive PCall where
  | fetchTargetCall
  | downloadCall
  | ocrCall
  | createImageCall (ref : String)
  | getTipCall
  | updateCall
deriving DecidableEq, Repr

/-- Outcomes of the external calls `processJob` may perform.  A `none`/
`false`/`.error` models the corresponding source-level
`if (error || !data) throw` path. -/
structure PipelineEff where
  fetchTarget : Option EntityWithContent
  download : Bool
  ocrOut : Except JsError MistralOCRResult
  createImage : String → Option String
  getTip : Option String
  updateOk : Bool

/-- Step 6 of `processJob` (`src/job.ts:359-389`): create a child entity for
every extracted image that carries a truthy inline `imageBase64` payload,
accumulating the created ids in push order and the `img.id → entityId` map
with JS `Map.set` semantics.  A creation failure aborts the whole loop. -/
def createChildren (eff : PipelineEff) :
    List MistralOCRImage → List String → List (String × String) →
    Except JobError (List String × List (String × String)) × List PCall
  | [], accIds, accMap => (.ok (accIds, accMap), [])
  | img :: rest, accIds, accMap =>
    if jsTruthyOptStr img.imageBase64 then
      match eff.createImage img.id with
      | none => (.error (.createImageFailed img.id), [.createImageCall img.id])
      | some cid =>
        match createChildren eff rest (accIds ++ [cid]) (jsMapSet accMap img.id cid) with
        | (res, cs) => (res, .createImageCall img.id :: cs)
    else
      createChildren eff rest accIds accMap

/-- `processJob` (`src/job.ts:261-457`), with every awaited external call
replaced by its outcome from `eff` and recorded in the returned trace.
Thrown `Error`s become `.error` values of `JobError`. -/
def processJob (eff : PipelineEff) (req : KladosRequest) :
    Except JobError ProcessResult × List PCall :=
  if ¬ jsTruthyOptStr req.target_entity then
    (.error .noTargetEntity, [])
  else
    match eff.fetchTarget with
    | none => (.error .fetchTargetFailed, [.fetchTargetCall])
    | some target =>
      match resolveJpegFile target req.input.target_file_key with
      | .error e => (.error e, [.fetchTargetCall])
      | .ok (fileKey, fileMeta) =>
        if sizeCheckFails fileMeta.size then
          (.error (.fileTooLarge fileKey (fileMeta.size.getD 0)), [.fetchTargetCall])
        else if ¬ eff.download then
          (.error .downloadFailed, [.fetchTargetCall, .downloadCall])
        else
          match eff.ocrOut with
          | .error e => (.error (.ocrThrown e), [.fetchTargetCall, .downloadCall, .ocrCall])
          | .ok ocrResult =>
            match createChildren eff ocrResult.images [] [] with
            | (.error e, cs) =>
              (.error e, [.fetchTargetCall, .downloadCall, .ocrCall] ++ cs)
            | (.ok (_extractedEntities, imageIdMap), cs) =>
              let transformedMarkdown := replaceImageRefs ocrResult.markdown imageIdMap
              if (jsTrim transformedMarkdown).length > 0 then
                match eff.getTip with
                | none =>
                  (.error .getTipFailed,
                   [.fetchTargetCall, .downloadCall, .ocrCall] ++ cs ++ [.getTipCall])
                | some _tip =>
                  if ¬ eff.updateOk then
                    (.error .updateFailed,
                     [.fetchTargetCall, .downloadCall, .ocrCall] ++ cs ++
                       [.getTipCall, .updateCall])
                  else
                    (.ok ⟨some [req.target_entity.getD ""], false⟩,
                     [.fetchTargetCall, .downloadCall, .ocrCall] ++ cs ++
                       [.getTipCall, .updateCall])
              else
                (.ok ⟨some [req.target_entity.getD ""], false⟩,
                 [.fetchTargetCall, .downloadCall, .ocrCall] ++ cs)

/-! ## The Durable Object job state machine (`src/job-do.ts`) -/

/-- Job status state machine (`type JobStatus`). -/
inductive JobStatus where
  | accepted
  | processing
  | done
  | error
deriving DecidableEq, Repr

/-- The single `job_state` row (id = 1): request, config, log id, optional
log file id, status, creation timestamp, optional error message. -/
structure JobRecord where
  request : KladosRequest
  config : KladosJobConfig
  logId : String
  logFileId : Option String
  status : JobStatus
  createdAt : String
  error : Option String
deriving DecidableEq, Repr

/-- Durable Object state: the optional single row, plus whether a wake-up
alarm is currently armed. -/
structure DOState where
  record : Option JobRecord
  alarmArmed : Bool
deriving DecidableEq, Repr

/-- The `/start` request body. -/
structure StartBody where
  request : KladosRequest
  config : KladosJobConfig
deriving DecidableEq, Repr

/-- The acceptance acknowledgment returned by `/start`. -/
structure StartResponse where
  accepted : Bool
  job_id : String
deriving DecidableEq, Repr

/-- `handleStart` (`src/job-do.ts:96-136`): if the row already exists return
the acknowledgment immediately without touching anything; otherwise insert
the row in status `accepted` (with the freshly generated `logId` and `now`
timestamp passed in explicitly) and arm the alarm. -/
def handleStart (body : StartBody) (logId now : String) (s : DOState) :
    StartResponse × DOState :=
  match s.record with
  | some _ => (⟨true, body.request.job_id⟩, s)
  | none =>
    (⟨true, body.request.job_id⟩,
     { record := some
         { request := body.request, config := body.config, logId := logId,
           logFileId := none, status := .accepted, createdAt := now,
           error := none },
       alarmArmed := true })

/-- `handleStatus` (`src/job-do.ts:141-154`): read-only snapshot. -/
def handleStatus (s : DOState) : Except Unit (JobStatus × Option String) :=
  match s.record with
  | none => .error ()
  | some r => .ok (r.status, r.error)

/-- External calls performed by the `alarm` handler. -/
inductive ACall where
  | writeLogCall
  | processJobCall
  | fetchRhizaCall
  | interpretThenCall
  | updateHandoffsCall
  | updateLogStatusCall
  | failKladosCall
deriving DecidableEq, Repr

/-- A flow step of the rhiza entity; only the presence of its `then` spec is
observed by the handler. -/
structure FlowStep where
  thenSpec : Option String
deriving DecidableEq, Repr

/-- The rhiza entity as read by the handler: its `properties.flow` record in
iteration order (possibly absent). -/
structure RhizaEnt where
  flow : Option (List (String × FlowStep))
deriving DecidableEq, Repr

/-- `interpretThen` outcome as observed by the handler. -/
structure HandoffResult where
  action : String
  handoffRecord : Option String
deriving DecidableEq, Repr

/-- Outcomes of the external calls the `alarm` handler may perform.  Each is
called at most once per alarm invocation.  `failKlados` (inside the catch
block) is modelled as succeeding. -/
structure AlarmEff where
  writeLogOut : Except String String
  processJobOut : Except String ProcessResult
  fetchRhizaOut : Except String RhizaEnt
  interpretThenOut : Except String HandoffResult
  updateHandoffsOut : Except String Unit
  updateLogDoneOut : Except String Unit

/-- The workflow-handoff block (`src/job-do.ts:242-290`): fetch the rhiza
entity (throwing on failure), then, if the current step name and the flow
are truthy and the step has a `then` spec, run `interpretThen` and append any
handoff record to the log. -/
def handoffBlock (eff : AlarmEff) (rz : RhizaCtx) : Except String Unit × List ACall :=
  match eff.fetchRhizaOut with
  | .error m => (.error m, [.fetchRhizaCall])
  | .ok ent =>
    let currentStepName := rz.path.bind List.getLast?
    match ent.flow with
    | none => (.ok (), [.fetchRhizaCall])
    | some flow =>
      if jsTruthyOptStr currentStepName then
        match flow.lookup (currentStepName.getD "") with
        | none => (.ok (), [.fetchRhizaCall])
        | some st =>
          if st.thenSpec.isSome then
            match eff.interpretThenOut with
            | .error m => (.error m, [.fetchRhizaCall, .interpretThenCall])
            | .ok hres =>
              if hres.handoffRecord.isSome then
                match eff.updateHandoffsOut with
                | .error m =>
                  (.error m, [.fetchRhizaCall, .interpretThenCall, .updateHandoffsCall])
                | .ok _ =>
                  (.ok (), [.fetchRhizaCall, .interpretThenCall, .updateHandoffsCall])
              else (.ok (), [.fetchRhizaCall, .interpretThenCall])
          else (.ok (), [.fetchRhizaCall])
      else (.ok (), [.fetchRhizaCall])

/-- Step 1 of the alarm handler (`src/job-do.ts:188-222`): write the initial
progress log only when `logFileId` is unset, persisting the returned handle
into the record before proceeding. -/
def step1Log (eff : AlarmEff) (r : JobRecord) :
    Except (String × JobRecord) JobRecord × List ACall :=
  match r.logFileId with
  | some _ => (.ok r, [])
  | none =>
    match eff.writeLogOut with
    | .error m => (.error (m, r), [.writeLogCall])
    | .ok fid => (.ok { r with logFileId := some fid }, [.writeLogCall])

/-- The `try` block of the alarm handler (`src/job-do.ts:187-298`), started
on the record already updated to `processing`.  On success returns the
updated record and whether a reschedule was requested; on failure returns the
thrown message together with the record as of the failure point (so the
catch block sees the current `logFileId`). -/
def tryBody (eff : AlarmEff) (r : JobRecord) :
    Except (String × JobRecord) (JobRecord × Bool) × List ACall :=
  match step1Log eff r with
  | (.error e, c1) => (.error e, c1)
  | (.ok r1, c1) =>
    match eff.processJobOut with
    | .error m => (.error (m, r1), c1 ++ [.processJobCall])
    | .ok result =>
      if result.reschedule then
        (.ok (r1, true), c1 ++ [.processJobCall])
      else
        let ho : Except String Unit × List ACall :=
          match r1.request.rhiza, result.outputs with
          | some rz, some _ => handoffBlock eff rz
          | some _, none => (.ok (), [])
          | none, _ => (.ok (), [])
        match ho with
        | (.error m, c2) => (.error (m, r1), c1 ++ [.processJobCall] ++ c2)
        | (.ok _, c2) =>
          match eff.updateLogDoneOut with
          | .error m =>
            (.error (m, r1), c1 ++ [.processJobCall] ++ c2 ++ [.updateLogStatusCall])
          | .ok _ =>
            (.ok (r1, false), c1 ++ [.processJobCall] ++ c2 ++ [.updateLogStatusCall])

/-- Result of one `alarm` invocation: the new state, the external calls
made, and the sequence of `status` column writes performed. -/
structure AlarmOut where
  state : DOState
  calls : List ACall
  writes : List JobStatus
deriving DecidableEq, Repr

/-- The `alarm` handler (`src/job-do.ts:159-319`): no row or a terminal row
is a no-op; otherwise write `processing`, run the try block, and finish with
`done`, a re-armed `processing`, or the catch block (`failKlados` when a log
handle exists, then write `error` and the message). -/
def alarm (eff : AlarmEff) (s : DOState) : AlarmOut :=
  match s.record with
  | none => ⟨s, [], []⟩
  | some r =>
    if r.status = .done ∨ r.status = .error then ⟨s, [], []⟩
    else
      let rp := { r with status := JobStatus.processing }
      match tryBody eff rp with
      | (.ok (r1, true), cs) =>
        ⟨{ record := some r1, alarmArmed := true }, cs, [.processing]⟩
      | (.ok (r1, false), cs) =>
        ⟨{ record := some { r1 with status := .done }, alarmArmed := false },
         cs, [.processing, .done]⟩
      | (.error (m, rf), cs) =>
        ⟨{ record := some { rf with status := .error, error := some m },
           alarmArmed := false },
         cs ++ (if rf.logFileId.isSome then [.failKladosCall] else []),
         [.processing, .error]⟩

/-- The status transitions permitted by the spec's state machine:
`accepted → processing`, the `processing → processing` re-arm, and
`processing → {done, error}`. -/
def stepOk : JobStatus → JobStatus → Bool
  | .accepted, .processing => true
  | .processing, .processing => true
  | .processing, .done => true
  | .processing, .error => true
  | _, _ => false

/-- A sequence of status writes is a valid chain from a starting status when
each consecutive pair is a permitted transition. -/
def chainOk : JobStatus → List JobStatus → Bool
  | _, [] => true
  | s, t :: rest => stepOk s t && chainOk t rest

/-- The record invariant `error` is set iff `status = error`. -/
def errorIffStatus (r : JobRecord) : Prop :=
  r.error.isSome = true ↔ r.status = JobStatus.error

/-! ## Helper lemmas for the OCR retry loop -/

/-- A failed attempt that does not satisfy the retry condition propagates the
error immediately: one call, no wait. -/
lemma ocrGo_stop (outcome : Nat → Except JsError MistralOCRResult)
    (m a fuel : Nat) (e : JsError) (h : outcome a = .error e)
    (hstop : ¬ (a < m ∧ isRetryable e = true)) :
    ocrGo outcome m a (fuel + 1) = (.error e, 1, []) := by
  simp only [ocrGo, h]
  rw [if_neg]
  simpa using hstop

/-- A failed attempt that satisfies the retry condition waits and recurses:
the final result is the recursion's, with one more call and the current
attempt prepended to the wait list. -/
lemma ocrGo_retry (outcome : Nat → Except JsError MistralOCRResult)
    (m a fuel : Nat) (e : JsError)
    (res : Except JsError MistralOCRResult) (calls : Nat) (waits : List Nat)
    (h : outcome a = .error e) (hlt : a < m) (hr : isRetryable e = true)
    (hrec : ocrGo outcome m (a + 1) fuel = (res, calls, waits)) :
    ocrGo outcome m a (fuel + 1) = (res, calls + 1, a :: waits) := by
  simp only [ocrGo, h]
  rw [if_pos (by exact ⟨hlt, by simpa using hr⟩), hrec]

/-! ## Claims C5, C2, C9 -/

/-- C5: the backoff delay equals `min(1000·2^n, 30000)` plus the jitter draw
times a quarter of that base; the base bounds the delay from below and
`30000 · 1.25` bounds it from above for every jitter draw in `[0, 1)`; the
jitter-free base, and hence the expected delay, is nondecreasing in the
attempt number. -/
theorem backoff_policy_spec (n : Nat) (r : ℚ) (hr0 : 0 ≤ r) (hr1 : r < 1) :
    calculateBackoff n r = backoffBase n + r * 0.25 * backoffBase n
    ∧ backoffBase n ≤ calculateBackoff n r
    ∧ calculateBackoff n r ≤ 30000 * 1.25
    ∧ backoffBase n ≤ backoffBase (n + 1)
    ∧ expectedBackoff n ≤ expectedBackoff (n + 1) := by
  have hb0 : (0 : ℚ) ≤ backoffBase n := by
    have : (0 : ℚ) ≤ 1000 * 2 ^ n := by positivity
    exact le_min this (by norm_num)
  have hb30 : backoffBase n ≤ 30000 := min_le_right _ _
  have hmono : backoffBase n ≤ backoffBase (n + 1) := by
    unfold backoffBase
    have : (1000 : ℚ) * 2 ^ n ≤ 1000 * 2 ^ (n + 1) := by
      have : (2 : ℚ) ^ n ≤ 2 ^ (n + 1) := by
        have := pow_le_pow_right₀ (a := (2 : ℚ)) (by norm_num) (Nat.le_succ n)
        simpa using this
      nlinarith
    exact min_le_min this le_rfl
  refine ⟨?_, ?_, ?_, hmono, ?_⟩
  · unfold calculateBackoff backoffBase; ring
  · unfold calculateBackoff backoffBase
    unfold backoffBase at hb0
    nlinarith
  · unfold calculateBackoff
    unfold backoffBase at hb0 hb30
    nlinarith
  · unfold expectedBackoff
    nlinarith

/-- C5 witness at `n = 2`, `r = 1/2`. -/
theorem backoff_policy_spec_witness :
    backoffBase 2 ≤ calculateBackoff 2 (1 / 2)
    ∧ calculateBackoff 2 (1 / 2) ≤ 30000 * 1.25
    ∧ expectedBackoff 2 ≤ expectedBackoff 3 := by
  have h := backoff_policy_spec 2 (1 / 2) (by norm_num) (by norm_num)
  exact ⟨h.2.1, h.2.2.1, h.2.2.2.2⟩

/-- C2: with `maxRetries = 3`, (1) if every attempt `0..3` fails with a
retryable `Error`, exactly 4 external calls are made, backoff waits happen
after attempts 0, 1, 2, and the last attempt's error is propagated; (2) a
non-retryable first-attempt error is propagated after exactly one call with
no wait; (3) in general a failed attempt is retried (a wait at that attempt
is recorded and the loop continues) iff `attempt < maxRetries` and the error
message matches a retryable substring, and otherwise the error is propagated
immediately with one call and no wait. -/
theorem ocr_client_retry_spec (outcome : Nat → Except JsError MistralOCRResult)
    (e : Nat → String) :
    ((∀ a, a ≤ 3 → outcome a = .error (.errInst (e a))
        ∧ isRetryable (.errInst (e a)) = true) →
      callMistralOCRDefault outcome = (.error (.errInst (e 3)), 4, [0, 1, 2]))
    ∧ (∀ msg, outcome 0 = .error (.errInst msg) →
        isRetryable (.errInst msg) = false →
        callMistralOCRDefault outcome = (.error (.errInst msg), 1, []))
    ∧ (∀ m a fuel msg, outcome a = .error (.errInst msg) →
        ((a < m ∧ isRetryable (.errInst msg) = true →
          ∃ res calls waits,
            ocrGo outcome m a (fuel + 1) = (res, calls + 1, a :: waits))
        ∧ (¬ (a < m ∧ isRetryable (.errInst msg) = true) →
          ocrGo outcome m a (fuel + 1) = (.error (.errInst msg), 1, [])))) := by
  refine ⟨?_, ?_, ?_⟩
  · intro h
    have h0 := h 0 (by norm_num)
    have h1 := h 1 (by norm_num)
    have h2 := h 2 (by norm_num)
    have h3 := h 3 (by norm_num)
    have s3 : ocrGo outcome 3 3 1 = (.error (.errInst (e 3)), 1, []) :=
      ocrGo_stop outcome 3 3 0 _ h3.1 (by simp)
    have s2 : ocrGo outcome 3 2 2 = (.error (.errInst (e 3)), 2, [2]) :=
      ocrGo_retry outcome 3 2 1 _ _ _ _ h2.1 (by norm_num) h2.2 s3
    have s1 : ocrGo outcome 3 1 3 = (.error (.errInst (e 3)), 3, [1, 2]) :=
      ocrGo_retry outcome 3 1 2 _ _ _ _ h1.1 (by norm_num) h1.2 s2
    exact ocrGo_retry outcome 3 0 3 _ _ _ _ h0.1 (by norm_num) h0.2 s1
  · intro msg h hnr
    exact ocrGo_stop outcome 3 0 3 _ h (by simp [hnr])
  · intro m a fuel msg h
    constructor
    · rintro ⟨hlt, hr⟩
      rcases hg : ocrGo outcome m (a + 1) fuel with ⟨res, calls, waits⟩
      exact ⟨res, calls, waits, ocrGo_retry outcome m a fuel _ _ _ _ h hlt hr hg⟩
    · intro hstop
      exact ocrGo_stop outcome m a fuel _ h hstop

/-- C2 witness: an always-`"503"` upstream yields exactly 4 calls with waits
after attempts 0, 1, 2; a first-attempt `"boom"` error yields exactly one
call. -/
theorem ocr_client_retry_spec_witness :
    callMistralOCRDefault (fun _ => .error (.errInst "503"))
      = (.error (.errInst "503"), 4, [0, 1, 2])
    ∧ callMistralOCRDefault (fun _ => .error (.errInst "boom"))
      = (.error (.errInst "boom"), 1, []) := by
  constructor
  · exact (ocr_client_retry_spec (fun _ => .error (.errInst "503")) (fun _ => "503")).1
      (fun a _ => ⟨rfl, by decide⟩)
  · exact (ocr_client_retry_spec (fun _ => .error (.errInst "boom")) (fun _ => "boom")).2.1
      "boom" rfl (by decide)

/-- C9: a rejection with a value that is not an `Error` instance is never
retryable, so it is propagated on the attempt where it occurs with exactly
one call and no backoff wait — even when its string form contains a
retryable substring such as `"503"`. -/
theorem ocr_client_non_error_spec (outcome : Nat → Except JsError MistralOCRResult)
    (m a fuel : Nat) (v : String) :
    isRetryable (.nonError v) = false
    ∧ (outcome a = .error (.nonError v) →
        ocrGo outcome m a (fuel + 1) = (.error (.nonError v), 1, []))
    ∧ (outcome 0 = .error (.nonError v) →
        callMistralOCRDefault outcome = (.error (.nonError v), 1, [])) := by
  refine ⟨rfl, ?_, ?_⟩
  · intro h
    exact ocrGo_stop outcome m a fuel _ h (by simp [isRetryable])
  · intro h
    exact ocrGo_stop outcome 3 0 3 _ h (by simp [isRetryable])

/-- C9 witness: a non-`Error` rejection whose string form is `"503"` is
still propagated immediately. -/
theorem ocr_client_non_error_spec_witness :
    callMistralOCRDefault (fun _ => .error (.nonError "503"))
      = (.error (.nonError "503"), 1, [])
    ∧ isRetryable (.nonError "503") = false := by
  have h := ocr_client_non_error_spec (fun _ => .error (.nonError "503")) 3 0 2 "503"
  exact ⟨h.2.2 rfl, h.1⟩

/-! ## Claim C6: file resolution -/

/-- C6 counterexample: the claim asserts that a supplied explicit key that is
present with content type `image/jpeg` is returned.  With the explicit key
`""` — present as a JPEG — the source's `if (targetFileKey)` truthiness guard
skips the explicit branch and auto-detection returns the other key `"a"`
instead. -/
theorem resolve_jpeg_file_empty_key_counterexample :
    resolveJpegFile
        ⟨"e1", "file",
         some [("a", ⟨"c1", some "image/jpeg", some 5⟩),
               ("", ⟨"c2", some "image/jpeg", some 6⟩)]⟩
        (some "")
      = .ok ("a", ⟨"c1", some "image/jpeg", some 5⟩)
    ∧ ("a" : String) ≠ "" := by
  exact ⟨rfl, by decide⟩

/-- C6 (amended): for a *non-empty* explicit key, resolution fails when the
key is absent or its declared content type is not `image/jpeg`, and otherwise
returns that key; with no explicit key — or the empty-string key, which JS
truthiness treats as absent — the first file in iteration order with content
type `image/jpeg` is returned, and resolution fails when none matches.  In
particular `{a: image/png, b: image/jpeg}` with no key resolves to `b` and
explicit key `a` fails with the wrong-type error. -/
theorem resolve_jpeg_file_spec (t : EntityWithContent) (k : String)
    (f : String × Option String × Option Nat) (tfk : Option String) :
    (k ≠ "" → (listEntityFiles t).find? (fun g => g.1 = k) = none →
      resolveJpegFile t (some k) = .error (.fileNotFound k))
    ∧ (k ≠ "" → (listEntityFiles t).find? (fun g => g.1 = k) = some f →
      f.2.1 ≠ some "image/jpeg" →
      resolveJpegFile t (some k) = .error (.notJpeg k f.2.1))
    ∧ (k ≠ "" → (listEntityFiles t).find? (fun g => g.1 = k) = some f →
      f.2.1 = some "image/jpeg" →
      ∃ meta, resolveJpegFile t (some k) = .ok (k, meta))
    ∧ (jsTruthyOptStr tfk = false →
      (listEntityFiles t).find? (fun g => g.2.1 = some "image/jpeg") = none →
      resolveJpegFile t tfk = .error .noJpegFound)
    ∧ (jsTruthyOptStr tfk = false →
      (listEntityFiles t).find? (fun g => g.2.1 = some "image/jpeg") = some f →
      ∃ meta, resolveJpegFile t tfk = .ok (f.1, meta))
    ∧ resolveJpegFile
        ⟨"e1", "file",
         some [("a", ⟨"c1", some "image/png", some 5⟩),
               ("b", ⟨"c2", some "image/jpeg", some 6⟩)]⟩ none
      = .ok ("b", ⟨"c2", some "image/jpeg", some 6⟩)
    ∧ resolveJpegFile
        ⟨"e1", "file",
         some [("a", ⟨"c1", some "image/png", some 5⟩),
               ("b", ⟨"c2", some "image/jpeg", some 6⟩)]⟩ (some "a")
      = .error (.notJpeg "a" (some "image/png")) := by
  refine ⟨?_, ?_, ?_, ?_, ?_, rfl, rfl⟩
  · intro hk hfind
    simp [resolveJpegFile, jsTruthyOptStr, hk, hfind]
  · intro hk hfind hct
    simp [resolveJpegFile, jsTruthyOptStr, hk, hfind, hct]
  · intro hk hfind hct
    refine ⟨((t.propertiesContent.getD []).lookup k).getD ⟨"", none, none⟩, ?_⟩
    simp [resolveJpegFile, jsTruthyOptStr, hk, hfind, hct]
  · intro htfk hfind
    simp [resolveJpegFile, htfk, hfind]
  · intro htfk hfind
    refine ⟨((t.propertiesContent.getD []).lookup f.1).getD ⟨"", none, none⟩, ?_⟩
    simp [resolveJpegFile, htfk, hfind]

/-- C6 amended-claim witness: instantiates each hypothesis of
`resolve_jpeg_file_spec` on the two-file demo entity. -/
theorem resolve_jpeg_file_spec_witness :
    resolveJpegFile
        ⟨"e1", "file",
         some [("a", ⟨"c1", some "image/png", some 5⟩),
               ("b", ⟨"c2", some "image/jpeg", some 6⟩)]⟩ (some "missing")
      = .error (.fileNotFound "missing")
    ∧ resolveJpegFile
        ⟨"e1", "file",
         some [("a", ⟨"c1", some "image/png", some 5⟩),
               ("b", ⟨"c2", some "image/jpeg", some 6⟩)]⟩ (some "a")
      = .error (.notJpeg "a" (some "image/png"))
    ∧ (∃ meta, resolveJpegFile
        ⟨"e1", "file",
         some [("a", ⟨"c1", some "image/png", some 5⟩),
               ("b", ⟨"c2", some "image/jpeg", some 6⟩)]⟩ (some "b")
      = .ok ("b", meta))
    ∧ resolveJpegFile ⟨"e0", "file", some [("a", ⟨"c1", some "image/png", none⟩)]⟩ none
      = .error .noJpegFound
    ∧ (∃ meta, resolveJpegFile
        ⟨"e1", "file",
         some [("a", ⟨"c1", some "image/png", some 5⟩),
               ("b", ⟨"c2", some "image/jpeg", some 6⟩)]⟩ none
      = .ok ("b", meta)) := by
  refine ⟨?_, ?_, ?_, ?_, ?_⟩
  · exact (resolve_jpeg_file_spec
        ⟨"e1", "file",
         some [("a", ⟨"c1", some "image/png", some 5⟩),
               ("b", ⟨"c2", some "image/jpeg", some 6⟩)]⟩ "missing"
        ("", none, none) none).1 (by decide) (by decide)
  · exact (resolve_jpeg_file_spec
        ⟨"e1", "file",
         some [("a", ⟨"c1", some "image/png", some 5⟩),
               ("b", ⟨"c2", some "image/jpeg", some 6⟩)]⟩ "a"
        ("a", some "image/png", some 5) none).2.1 (by decide) (by decide) (by decide)
  · exact (resolve_jpeg_file_spec
        ⟨"e1", "file",
         some [("a", ⟨"c1", some "image/png", some 5⟩),
               ("b", ⟨"c2", some "image/jpeg", some 6⟩)]⟩ "b"
        ("b", some "image/jpeg", some 6) none).2.2.1 (by decide) (by decide) (by decide)
  · exact (resolve_jpeg_file_spec
        ⟨"e0", "file", some [("a", ⟨"c1", some "image/png", none⟩)]⟩ "x"
        ("", none, none) none).2.2.2.1 (by decide) (by decide)
  · exact (resolve_jpeg_file_spec
        ⟨"e1", "file",
         some [("a", ⟨"c1", some "image/png", some 5⟩),
               ("b", ⟨"c2", some "image/jpeg", some 6⟩)]⟩ "x"
        ("b", some "image/jpeg", some 6) none).2.2.2.2.1 (by decide) (by decide)

/-! ## Helper lemmas for the reference rewriter -/

/-- Dropping a satisfying prefix never lengthens a list. -/
lemma dropWhile_length_le (p : Char → Bool) (l : List Char) :
    (l.dropWhile p).length ≤ l.length := by
  induction l with
  | nil => simp
  | cons a as ih =>
    rw [List.dropWhile_cons]
    split
    · exact le_trans ih (by simp)
    · simp

/-- `takeWhile`/`dropWhile` split a list at a separator that fails the
predicate when everything before it satisfies it. -/
lemma takeWhile_append_sep (p : Char → Bool) (l r : List Char) (x : Char)
    (hl : ∀ a ∈ l, p a = true) (hx : p x = false) :
    (l ++ x :: r).takeWhile p = l ∧ (l ++ x :: r).dropWhile p = x :: r := by
  induction l with
  | nil => simp [List.takeWhile_cons, List.dropWhile_cons, hx]
  | cons a as ih =>
    have ha : p a = true := hl a (by simp)
    have ih' := ih (fun b hb => hl b (by simp [hb]))
    simp [List.takeWhile_cons, List.dropWhile_cons, ha, ih'.1, ih'.2]

/-- The scanner matches `![alt](src)` at the head of the text exactly as the
regex does, capturing `alt` and `src` and leaving the remainder. -/
lemma tryMatch_matchChars (alt src rest : List Char)
    (halt : ']' ∉ alt) (hsrc : ')' ∉ src) (hne : src ≠ []) :
    tryMatch (matchChars alt src ++ rest) = some (alt, src, rest) := by
  have halt' : ∀ a ∈ alt, notChar ']' a = true := by
    intro a ha
    simp only [notChar, decide_eq_true_eq]
    exact fun h => halt (h ▸ ha)
  have hsrc' : ∀ a ∈ src, notChar ')' a = true := by
    intro a ha
    simp only [notChar, decide_eq_true_eq]
    exact fun h => hsrc (h ▸ ha)
  have hA := takeWhile_append_sep (notChar ']') alt ('(' :: (src ++ ')' :: rest)) ']'
      halt' (by simp [notChar])
  have hB := takeWhile_append_sep (notChar ')') src rest ')' hsrc' (by simp [notChar])
  have hshape : matchChars alt src ++ rest
      = '!' :: '[' :: (alt ++ ']' :: '(' :: (src ++ ')' :: rest)) := by
    simp [matchChars]
  rw [hshape]
  simp only [tryMatch]
  simp only [and_self, if_true]
  rw [hA.1, hA.2]
  simp only [and_self, if_true]
  rw [hB.1, hB.2]
  rw [if_neg hne]
  simp

/-- A list whose head is not `'!'` cannot start a match. -/
lemma tryMatch_none_of_head (c : Char) (rest : List Char) (h : c ≠ '!') :
    tryMatch (c :: rest) = none := by
  cases rest with
  | nil => rfl
  | cons c2 r =>
    simp only [tryMatch]
    rw [if_neg (fun hh => h hh.1)]

/-- A successful match consumes at least one character. -/
lemma tryMatch_length (l alt src rest' : List Char)
    (h : tryMatch l = some (alt, src, rest')) : rest'.length < l.length := by
  cases l with
  | nil => simp [tryMatch] at h
  | cons c1 t =>
    cases t with
    | nil => simp [tryMatch] at h
    | cons c2 rest =>
      simp only [tryMatch] at h
      by_cases h12 : c1 = '!' ∧ c2 = '['
      · rw [if_pos h12] at h
        rcases hd : rest.dropWhile (notChar ']') with _ | ⟨d1, t2⟩
        · rw [hd] at h; simp at h
        · rcases t2 with _ | ⟨d2, r2⟩
          · rw [hd] at h; simp at h
          · rw [hd] at h
            simp only [] at h
            by_cases h34 : d1 = ']' ∧ d2 = '('
            · rw [if_pos h34] at h
              by_cases hsrc0 : r2.takeWhile (notChar ')') = []
              · rw [if_pos hsrc0] at h; simp at h
              · rw [if_neg hsrc0] at h
                rcases he : r2.dropWhile (notChar ')') with _ | ⟨e1, r4⟩
                · rw [he] at h; simp at h
                · rw [he] at h
                  simp only [] at h
                  by_cases he1 : e1 = ')'
                  · rw [if_pos he1] at h
                    simp only [Option.some.injEq, Prod.mk.injEq] at h
                    obtain ⟨-, -, hr⟩ := h
                    subst hr
                    have b1 : (r2.dropWhile (notChar ')')).length ≤ r2.length :=
                      dropWhile_length_le _ _
                    have b2 : (rest.dropWhile (notChar ']')).length ≤ rest.length :=
                      dropWhile_length_le _ _
                    rw [he] at b1
                    rw [hd] at b2
                    simp only [List.length_cons] at b1 b2 ⊢
                    omega
                  · rw [if_neg he1] at h; simp at h
            · rw [if_neg h34] at h; simp at h
      · rw [if_neg h12] at h; simp at h

/-- The scan result does not depend on the fuel, as long as the fuel covers
the list length. -/
lemma scanGo_fuel (m : List (String × String)) :
    ∀ f1 f2 l, l.length ≤ f1 → l.length ≤ f2 → scanGo m f1 l = scanGo m f2 l := by
  intro f1
  induction f1 with
  | zero =>
    intro f2 l h1 _
    have hl : l = [] := List.length_eq_zero.mp (Nat.le_zero.mp h1)
    subst hl
    cases f2 <;> rfl
  | succ n ih =>
    intro f2 l h1 h2
    cases l with
    | nil => cases f2 <;> rfl
    | cons c rest =>
      cases f2 with
      | zero => simp at h2
      | succ k =>
        simp only [scanGo]
        cases hm : tryMatch (c :: rest) with
        | none =>
          have hb1 : rest.length ≤ n := by simpa using h1
          have hb2 : rest.length ≤ k := by simpa using h2
          rw [ih k rest hb1 hb2]
        | some t =>
          obtain ⟨alt, src, rest'⟩ := t
          have hlt := tryMatch_length (c :: rest) alt src rest' hm
          have hlt' : rest'.length ≤ rest.length := by
            simp only [List.length_cons] at hlt
            omega
          have h1' : rest.length + 1 ≤ n + 1 := by simpa using h1
          have h2' : rest.length + 1 ≤ k + 1 := by simpa using h2
          show rewriteMatch m alt src ++ scanGo m n rest'
              = rewriteMatch m alt src ++ scanGo m k rest'
          rw [ih k rest' (by omega) (by omega)]

/-- Text with no `'!'` character contains no image-link syntax and is left
unchanged by the scan. -/
lemma scanGo_no_bang (m : List (String × String)) :
    ∀ fuel l, '!' ∉ l → scanGo m fuel l = l := by
  intro fuel
  induction fuel with
  | zero => intro l _; rfl
  | succ n ih =>
    intro l h
    cases l with
    | nil => rfl
    | cons c rest =>
      have hc : c ≠ '!' := fun hc => h (by simp [hc])
      simp only [scanGo, tryMatch_none_of_head c rest hc]
      exact congrArg (c :: ·) (ih rest (fun hr => h (List.mem_cons_of_mem _ hr)))

/-! ## Claim C7: reference rewriter -/

/-- C7 counterexample: the claim asserts that on a map hit the occurrence is
replaced with `![alt](arke:<mapped id>)`.  With the map `{img-0 → ""}` the
lookup hits, yet the source's `entityId ? ... : match` truthiness test treats
the empty-string id as no hit and returns the occurrence unchanged instead of
producing `![x](arke:)`. -/
theorem replace_image_refs_empty_id_counterexample :
    replaceImageRefs "![x](img-0.jpeg)" [("img-0", "")] = "![x](img-0.jpeg)"
    ∧ ("![x](img-0.jpeg)" : String) ≠ "![x](arke:)" := by
  exact ⟨by decide, by decide⟩

/-- C7 (amended): the rewriter transforms each occurrence of `![alt](src)`
by stripping a trailing `.jpeg`/`.jpg`/`.png` suffix case-insensitively from
`src`, looking up the stripped form then the raw form in the map, and — on a
hit whose mapped id is *non-empty* — replacing the occurrence with
`![alt](arke:<id>)`, the alt text preserved; a hit mapping to the empty
string, like no hit at all, leaves the occurrence character-for-character
unchanged, as is all text outside the image-link syntax; the function is
pure and total.  Conjuncts: (1) the scan splits a leading match off and
rewrites the tail independently; (2) the per-match transform is exactly
stripped-then-raw lookup with the empty-id exception; (3) text without `'!'`
is returned unchanged; (4)/(5) the concrete mapped and unmapped examples. -/
theorem replace_image_refs_spec (idMap : List (String × String))
    (alt src rest : List Char) (s : String) :
    (']' ∉ alt → ')' ∉ src → src ≠ [] →
      scanGo idMap (matchChars alt src ++ rest).length (matchChars alt src ++ rest)
        = rewriteMatch idMap alt src ++ scanGo idMap rest.length rest)
    ∧ (rewriteMatch idMap alt src =
        match jsOrStr (idMap.lookup (String.mk (stripImageSuffix src)))
            (idMap.lookup (String.mk src)) with
        | some eid =>
          if eid = "" then matchChars alt src
          else '!' :: '[' :: (alt ++ ']' :: '(' :: (("arke:" ++ eid).data ++ [')']))
        | none => matchChars alt src)
    ∧ ('!' ∉ s.data → replaceImageRefs s idMap = s)
    ∧ replaceImageRefs "![x](img-0.jpeg)" [("img-0", "E1")] = "![x](arke:E1)"
    ∧ replaceImageRefs "![x](img-9.jpeg)" [("img-0", "E1")] = "![x](img-9.jpeg)" := by
  refine ⟨?_, ?_, ?_, by decide, by decide⟩
  · intro halt hsrc hne
    have hm := tryMatch_matchChars alt src rest halt hsrc hne
    have hshape : matchChars alt src ++ rest
        = '!' :: ('[' :: (alt ++ ']' :: '(' :: (src ++ ')' :: rest))) := by
      simp [matchChars]
    rw [hshape] at hm ⊢
    simp only [List.length_cons]
    simp only [scanGo, hm]
    have hb : rest.length ≤ (alt ++ ']' :: '(' :: (src ++ ')' :: rest)).length + 1 := by
      simp [List.length_append]
      omega
    rw [scanGo_fuel idMap ((alt ++ ']' :: '(' :: (src ++ ')' :: rest)).length + 1)
      rest.length rest hb le_rfl]
  · simp only [rewriteMatch]
    cases h : jsOrStr (idMap.lookup (String.mk (stripImageSuffix src)))
        (idMap.lookup (String.mk src)) with
    | none => simp [jsTruthyOptStr, matchChars]
    | some eid =>
      by_cases he : eid = ""
      · simp [jsTruthyOptStr, he, matchChars]
      · simp [jsTruthyOptStr, he]
  · intro h
    unfold replaceImageRefs
    rw [scanGo_no_bang idMap _ s.data h]

/-- C7 amended-claim witness: instantiates the hypotheses of
`replace_image_refs_spec` — the leading-match decomposition on the concrete
`![x](img-0.jpeg)` occurrence and the no-image-syntax case on plain text. -/
theorem replace_image_refs_spec_witness :
    scanGo [("img-0", "E1")]
        (matchChars ['x'] "img-0.jpeg".data ++ []).length
        (matchChars ['x'] "img-0.jpeg".data ++ [])
      = rewriteMatch [("img-0", "E1")] ['x'] "img-0.jpeg".data
        ++ scanGo [("img-0", "E1")] ([] : List Char).length []
    ∧ replaceImageRefs "plain text" [("a", "b")] = "plain text" := by
  constructor
  · exact (replace_image_refs_spec [("img-0", "E1")] ['x'] "img-0.jpeg".data [] "x").1
      (by decide) (by decide) (by decide)
  · exact (replace_image_refs_spec [("a", "b")] [] [] [] "plain text").2.2.1 (by decide)

/-! ## Claims C8 and C10: pipeline frame conditions -/

/-- Every call recorded by the child-creation loop is an image creation. -/
lemma createChildren_calls (eff : PipelineEff) :
    ∀ (imgs : List MistralOCRImage) (accIds : List String)
      (accMap : List (String × String)) (c : PCall),
      c ∈ (createChildren eff imgs accIds accMap).2 → ∃ ref, c = .createImageCall ref := by
  intro imgs
  induction imgs with
  | nil => intro accIds accMap c hc; simp [createChildren] at hc
  | cons img rest ih =>
    intro accIds accMap c hc
    simp only [createChildren] at hc
    by_cases hb : jsTruthyOptStr img.imageBase64 = true
    · rw [if_pos hb] at hc
      cases hci : eff.createImage img.id with
      | none =>
        rw [hci] at hc
        simp at hc
        exact ⟨img.id, hc⟩
      | some cid =>
        rw [hci] at hc
        simp only [List.mem_cons] at hc
        rcases hc with hc | hc
        · exact ⟨img.id, hc⟩
        · exact ih _ _ c hc
    · rw [if_neg hb] at hc
      exact ih _ _ c hc

/-- C8: once the pipeline reaches the rewrite step, the version-token read
and the guarded update happen iff the rewritten markdown is non-empty after
trimming; when it is blank the pipeline performs neither call and still
completes successfully with the target id as sole output. -/
theorem empty_text_noop_spec (eff : PipelineEff) (req : KladosRequest)
    (t : EntityWithContent) (k : String) (meta : FileMetadata)
    (ids : List String) (idMap : List (String × String)) (cs : List PCall)
    (res : MistralOCRResult)
    (h0 : jsTruthyOptStr req.target_entity = true)
    (h1 : eff.fetchTarget = some t)
    (h2 : resolveJpegFile t req.input.target_file_key = .ok (k, meta))
    (h3 : sizeCheckFails meta.size = false)
    (h4 : eff.download = true)
    (h5 : eff.ocrOut = .ok res)
    (h6 : createChildren eff res.images [] [] = (.ok (ids, idMap), cs)) :
    ((jsTrim (replaceImageRefs res.markdown idMap)).length = 0 →
      processJob eff req
        = (.ok ⟨some [req.target_entity.getD ""], false⟩,
           [.fetchTargetCall, .downloadCall, .ocrCall] ++ cs)
      ∧ PCall.getTipCall ∉ (processJob eff req).2
      ∧ PCall.updateCall ∉ (processJob eff req).2)
    ∧ (PCall.getTipCall ∈ (processJob eff req).2
        ↔ (jsTrim (replaceImageRefs res.markdown idMap)).length > 0)
    ∧ (PCall.updateCall ∈ (processJob eff req).2 →
        (jsTrim (replaceImageRefs res.markdown idMap)).length > 0) := by
  have hnotip : PCall.getTipCall ∉ cs := by
    intro hmem
    obtain ⟨ref, href⟩ := createChildren_calls eff res.images [] [] _ (by rw [h6]; exact hmem)
    exact PCall.noConfusion href
  have hnoupd : PCall.updateCall ∉ cs := by
    intro hmem
    obtain ⟨ref, href⟩ := createChildren_calls eff res.images [] [] _ (by rw [h6]; exact hmem)
    exact PCall.noConfusion href
  by_cases hlen : (jsTrim (replaceImageRefs res.markdown idMap)).length > 0
  · refine ⟨fun h => absurd h (by omega), ?_, fun _ => hlen⟩
    constructor
    · intro _; exact hlen
    · intro _
      cases hg : eff.getTip with
      | none => simp [processJob, h0, h1, h2, h3, h4, h5, h6, hlen, hg]
      | some tip =>
        cases hu : eff.updateOk <;>
          simp [processJob, h0, h1, h2, h3, h4, h5, h6, hlen, hg, hu]
  · have hz : (jsTrim (replaceImageRefs res.markdown idMap)).length = 0 := by omega
    have heq : processJob eff req
        = (.ok ⟨some [req.target_entity.getD ""], false⟩,
           [.fetchTargetCall, .downloadCall, .ocrCall] ++ cs) := by
      simp [processJob, h0, h1, h2, h3, h4, h5, h6, hz]
    refine ⟨fun _ => ⟨heq, ?_, ?_⟩, ?_, ?_⟩
    · rw [heq]; simp [hnotip]
    · rw [heq]; simp [hnoupd]
    · rw [heq]
      constructor
      · intro hmem
        exact absurd hmem (by simp [hnotip])
      · intro hpos; exact absurd hpos hlen
    · rw [heq]
      intro hmem
      exact absurd hmem (by simp [hnoupd])

/-- C8 witness: a run whose OCR markdown is whitespace-only skips the tip
read and the update and succeeds. -/
theorem empty_text_noop_spec_witness :
    processJob
        ⟨some ⟨"tgt", "file", some [("img", ⟨"c", some "image/jpeg", some 10⟩)]⟩,
         true, .ok ⟨"  \n ", []⟩, fun _ => none, none, false⟩
        ⟨"job1", some "tgt", "coll", "jobs", "https://api", "test", none, ⟨none⟩⟩
      = (.ok ⟨some ["tgt"], false⟩,
         [.fetchTargetCall, .downloadCall, .ocrCall])
    ∧ PCall.getTipCall ∉
        (processJob
          ⟨some ⟨"tgt", "file", some [("img", ⟨"c", some "image/jpeg", some 10⟩)]⟩,
           true, .ok ⟨"  \n ", []⟩, fun _ => none, none, false⟩
          ⟨"job1", some "tgt", "coll", "jobs", "https://api", "test", none, ⟨none⟩⟩).2 := by
  have h := empty_text_noop_spec
      ⟨some ⟨"tgt", "file", some [("img", ⟨"c", some "image/jpeg", some 10⟩)]⟩,
       true, .ok ⟨"  \n ", []⟩, fun _ => none, none, false⟩
      ⟨"job1", some "tgt", "coll", "jobs", "https://api", "test", none, ⟨none⟩⟩
      ⟨"tgt", "file", some [("img", ⟨"c", some "image/jpeg", some 10⟩)]⟩
      "img" ⟨"c", some "image/jpeg", some 10⟩ [] [] [] ⟨"  \n ", []⟩
      rfl rfl rfl rfl rfl rfl rfl
  obtain ⟨hmain, -, -⟩ := h
  obtain ⟨heq, htip, -⟩ := hmain rfl
  exact ⟨heq, htip⟩

/-- C10: the 20 MiB ceiling fires only on a present, non-zero declared size
strictly above `MAX_FILE_SIZE`; a missing, zero, or exactly-20 MiB size
passes the check, and a passing check proceeds to the download (and, when
the download succeeds, to the OCR call) regardless of anything else. -/
theorem size_check_spec (eff : PipelineEff) (req : KladosRequest)
    (t : EntityWithContent) (k : String) (meta : FileMetadata) (n : Nat)
    (h0 : jsTruthyOptStr req.target_entity = true)
    (h1 : eff.fetchTarget = some t)
    (h2 : resolveJpegFile t req.input.target_file_key = .ok (k, meta)) :
    sizeCheckFails none = false
    ∧ sizeCheckFails (some 0) = false
    ∧ sizeCheckFails (some (20 * 1024 * 1024)) = false
    ∧ (sizeCheckFails (some n) = true ↔ n ≠ 0 ∧ n > 20 * 1024 * 1024)
    ∧ (sizeCheckFails meta.size = false →
        PCall.downloadCall ∈ (processJob eff req).2)
    ∧ (sizeCheckFails meta.size = false → eff.download = true →
        PCall.ocrCall ∈ (processJob eff req).2)
    ∧ (sizeCheckFails meta.size = true →
        processJob eff req
          = (.error (.fileTooLarge k (meta.size.getD 0)), [.fetchTargetCall])) := by
  refine ⟨rfl, by decide, by decide, ?_, ?_, ?_, ?_⟩
  · simp [sizeCheckFails, MAX_FILE_SIZE]
  · intro h3
    cases h4 : eff.download with
    | false => simp [processJob, h0, h1, h2, h3, h4]
    | true =>
      cases h5 : eff.ocrOut with
      | error e => simp [processJob, h0, h1, h2, h3, h4, h5]
      | ok res =>
        rcases h6 : createChildren eff res.images [] [] with ⟨cres, ccs⟩
        cases cres with
        | error e => simp [processJob, h0, h1, h2, h3, h4, h5, h6]
        | ok p =>
          obtain ⟨ids, idMap⟩ := p
          by_cases hlen : (jsTrim (replaceImageRefs res.markdown idMap)).length > 0
          · cases hg : eff.getTip with
            | none => simp [processJob, h0, h1, h2, h3, h4, h5, h6, hlen, hg]
            | some tip =>
              cases hu : eff.updateOk <;>
                simp [processJob, h0, h1, h2, h3, h4, h5, h6, hlen, hg, hu]
          · have hz : (jsTrim (replaceImageRefs res.markdown idMap)).length = 0 := by omega
            simp [processJob, h0, h1, h2, h3, h4, h5, h6, hz]
  · intro h3 h4
    cases h5 : eff.ocrOut with
    | error e => simp [processJob, h0, h1, h2, h3, h4, h5]
    | ok res =>
      rcases h6 : createChildren eff res.images [] [] with ⟨cres, ccs⟩
      cases cres with
      | error e => simp [processJob, h0, h1, h2, h3, h4, h5, h6]
      | ok p =>
        obtain ⟨ids, idMap⟩ := p
        by_cases hlen : (jsTrim (replaceImageRefs res.markdown idMap)).length > 0
        · cases hg : eff.getTip with
          | none => simp [processJob, h0, h1, h2, h3, h4, h5, h6, hlen, hg]
          | some tip =>
            cases hu : eff.updateOk <;>
              simp [processJob, h0, h1, h2, h3, h4, h5, h6, hlen, hg, hu]
        · have hz : (jsTrim (replaceImageRefs res.markdown idMap)).length = 0 := by omega
          simp [processJob, h0, h1, h2, h3, h4, h5, h6, hz]
  · intro h3
    simp [processJob, h0, h1, h2, h3]

/-- C10 witness: a missing declared size, a zero size, and an exactly-20 MiB
size all reach the download, and a 30 MB size aborts with the too-large
error before any download. -/
theorem size_check_spec_witness :
    PCall.downloadCall ∈
      (processJob
        ⟨some ⟨"tgt", "file", some [("img", ⟨"c", some "image/jpeg", none⟩)]⟩,
         false, .error (.errInst "x"), fun _ => none, none, false⟩
        ⟨"job1", some "tgt", "coll", "jobs", "https://api", "test", none, ⟨none⟩⟩).2
    ∧ sizeCheckFails (some 0) = false
    ∧ sizeCheckFails (some (20 * 1024 * 1024)) = false
    ∧ processJob
        ⟨some ⟨"tgt", "file", some [("img", ⟨"c", some "image/jpeg", some 30000000⟩)]⟩,
         true, .error (.errInst "x"), fun _ => none, none, false⟩
        ⟨"job1", some "tgt", "coll", "jobs", "https://api", "test", none, ⟨none⟩⟩
      = (.error (.fileTooLarge "img" 30000000), [.fetchTargetCall]) := by
  have h1 := size_check_spec
      ⟨some ⟨"tgt", "file", some [("img", ⟨"c", some "image/jpeg", none⟩)]⟩,
       false, .error (.errInst "x"), fun _ => none, none, false⟩
      ⟨"job1", some "tgt", "coll", "jobs", "https://api", "test", none, ⟨none⟩⟩
      ⟨"tgt", "file", some [("img", ⟨"c", some "image/jpeg", none⟩)]⟩
      "img" ⟨"c", some "image/jpeg", none⟩ 0 rfl rfl rfl
  have h2 := size_check_spec
      ⟨some ⟨"tgt", "file", some [("img", ⟨"c", some "image/jpeg", some 30000000⟩)]⟩,
       true, .error (.errInst "x"), fun _ => none, none, false⟩
      ⟨"job1", some "tgt", "coll", "jobs", "https://api", "test", none, ⟨none⟩⟩
      ⟨"tgt", "file", some [("img", ⟨"c", some "image/jpeg", some 30000000⟩)]⟩
      "img" ⟨"c", some "image/jpeg", some 30000000⟩ 0 rfl rfl rfl
  exact ⟨h1.2.2.2.2.1 rfl, h1.2.1, h1.2.2.1, h2.2.2.2.2.2.2 (by decide)⟩

/-! ## Helper lemmas for the alarm handler -/

/-- The handoff block only performs rhiza-fetch, interpret and
handoff-append calls. -/
lemma handoffBlock_calls (eff : AlarmEff) (rz : RhizaCtx) (c : ACall)
    (hc : c ∈ (handoffBlock eff rz).2) :
    c = .fetchRhizaCall ∨ c = .interpretThenCall ∨ c = .updateHandoffsCall := by
  simp only [handoffBlock] at hc
  repeat' split at hc
  all_goals simp at hc
  all_goals tauto

/-- Step 1 performs either no call (handle already present) or exactly the
initial log write, the latter only when `logFileId` is unset. -/
lemma step1Log_calls (eff : AlarmEff) (r : JobRecord) :
    (step1Log eff r).2 = []
    ∨ ((step1Log eff r).2 = [ACall.writeLogCall] ∧ r.logFileId = none) := by
  cases hL : r.logFileId with
  | some f => simp [step1Log, hL]
  | none => cases hw : eff.writeLogOut <;> simp [step1Log, hL, hw]

/-- Every call in the try block's trace is one of the five try-block calls,
and a log write implies the handle was unset beforehand.  In particular the
catch-block-only `failKlados` never appears here. -/
lemma tryBody_calls_spec (eff : AlarmEff) (r : JobRecord) (c : ACall)
    (hc : c ∈ (tryBody eff r).2) :
    c = .processJobCall ∨ c = .fetchRhizaCall ∨ c = .interpretThenCall
    ∨ c = .updateHandoffsCall ∨ c = .updateLogStatusCall
    ∨ (c = .writeLogCall ∧ r.logFileId = none) := by
  have hstep := step1Log_calls eff r
  rcases hs : step1Log eff r with ⟨res1, c1⟩
  rw [hs] at hstep
  have hc1 : c ∈ c1 → c = ACall.writeLogCall ∧ r.logFileId = none := by
    intro hm
    rcases hstep with h | ⟨h, hn⟩
    · simp at h; simp [h] at hm
    · simp at h; rw [h] at hm; simp at hm; exact ⟨hm, hn⟩
  simp only [tryBody, hs] at hc
  cases res1 with
  | error e =>
    simp only [] at hc
    exact Or.inr (Or.inr (Or.inr (Or.inr (Or.inr (hc1 hc)))))
  | ok r1 =>
    simp only [] at hc
    cases hp : eff.processJobOut with
    | error m =>
      rw [hp] at hc
      simp at hc
      rcases hc with hm | rfl
      · exact Or.inr (Or.inr (Or.inr (Or.inr (Or.inr (hc1 hm)))))
      · exact Or.inl rfl
    | ok result =>
      rw [hp] at hc
      by_cases hr : result.reschedule = true
      · simp only [hr, if_true] at hc
        simp at hc
        rcases hc with hm | rfl
        · exact Or.inr (Or.inr (Or.inr (Or.inr (Or.inr (hc1 hm)))))
        · exact Or.inl rfl
      · rw [Bool.not_eq_true] at hr
        simp only [hr, Bool.false_eq_true, if_false] at hc
        rcases hrz : r1.request.rhiza with _ | rz
        · simp only [hrz] at hc
          cases hu : eff.updateLogDoneOut <;> rw [hu] at hc <;> simp at hc <;>
            rcases hc with hm | rfl | rfl <;>
            first
              | exact Or.inr (Or.inr (Or.inr (Or.inr (Or.inr (hc1 hm)))))
              | exact Or.inl rfl
              | tauto
        · rcases ho : result.outputs with _ | outs
          · simp only [hrz, ho] at hc
            cases hu : eff.updateLogDoneOut <;> rw [hu] at hc <;> simp at hc <;>
              rcases hc with hm | rfl | rfl <;>
              first
                | exact Or.inr (Or.inr (Or.inr (Or.inr (Or.inr (hc1 hm)))))
                | exact Or.inl rfl
                | tauto
          · simp only [hrz, ho] at hc
            rcases hhb : handoffBlock eff rz with ⟨hres, c2⟩
            rw [hhb] at hc
            have hc2 : ∀ d ∈ c2, d = ACall.fetchRhizaCall ∨ d = ACall.interpretThenCall
                ∨ d = ACall.updateHandoffsCall :=
              fun d hd => handoffBlock_calls eff rz d (by rw [hhb]; exact hd)
            cases hres with
            | error m =>
              simp at hc
              rcases hc with hm | rfl | hm
              · exact Or.inr (Or.inr (Or.inr (Or.inr (Or.inr (hc1 hm)))))
              · exact Or.inl rfl
              · rcases hc2 _ hm with rfl | rfl | rfl <;> tauto
            | ok u =>
              cases hu : eff.updateLogDoneOut <;> rw [hu] at hc <;> simp at hc <;>
                rcases hc with hm | rfl | hm | rfl <;>
                first
                  | exact Or.inr (Or.inr (Or.inr (Or.inr (Or.inr (hc1 hm)))))
                  | exact Or.inl rfl
                  | (rcases hc2 _ hm with rfl | rfl | rfl <;> tauto)
                  | tauto


/-- The try block never touches `status` or `error`, and never clears a
`logFileId` that was already set: whichever way it exits, the record it hands
back agrees with the input on those fields. -/
lemma tryBody_record (eff : AlarmEff) (r : JobRecord) :
    (∀ r1 b cs, tryBody eff r = (.ok (r1, b), cs) →
      r1.status = r.status ∧ r1.error = r.error
      ∧ (∀ f, r.logFileId = some f → r1.logFileId = some f))
    ∧ (∀ m rf cs, tryBody eff r = (.error (m, rf), cs) →
      rf.status = r.status ∧ rf.error = r.error
      ∧ (∀ f, r.logFileId = some f → rf.logFileId = some f)) := by
  rcases hs : step1Log eff r with ⟨res1, c1⟩
  have hok1 : ∀ r1, res1 = .ok r1 →
      r1.status = r.status ∧ r1.error = r.error
      ∧ (∀ f, r.logFileId = some f → r1.logFileId = some f) := by
    intro r1 h1
    cases hL : r.logFileId with
    | some f =>
      rw [step1Log, hL] at hs
      simp at hs
      obtain ⟨hres, -⟩ := hs
      rw [← hres] at h1
      simp at h1
      subst h1
      exact ⟨rfl, rfl, fun g hg => by rw [hL]; exact hg⟩
    | none =>
      rw [step1Log, hL] at hs
      cases hw : eff.writeLogOut with
      | error m => rw [hw] at hs; simp at hs; rw [← hs.1] at h1; simp at h1
      | ok fid =>
        rw [hw] at hs
        simp at hs
        obtain ⟨hres, -⟩ := hs
        rw [← hres] at h1
        simp at h1
        subst h1
        exact ⟨rfl, rfl, fun g hg => Option.noConfusion hg⟩
  have herr1 : ∀ m rf, res1 = .error (m, rf) → rf = r := by
    intro m rf h1
    cases hL : r.logFileId with
    | some f => rw [step1Log, hL] at hs; simp at hs; rw [← hs.1] at h1; simp at h1
    | none =>
      rw [step1Log, hL] at hs
      cases hw : eff.writeLogOut with
      | error m2 =>
        rw [hw] at hs
        simp at hs
        rw [← hs.1] at h1
        simp at h1
        exact h1.2.symm
      | ok fid => rw [hw] at hs; simp at hs; rw [← hs.1] at h1; simp at h1
  simp only [tryBody, hs]
  cases res1 with
  | error e =>
    obtain ⟨m0, rf0⟩ := e
    constructor
    · intro r1 b cs h; simp at h
    · intro m rf cs h
      simp at h
      obtain ⟨⟨hm, hrf⟩, -⟩ := h
      rw [← hrf]
      rw [herr1 m0 rf0 rfl]
      exact ⟨rfl, rfl, fun g hg => hg⟩
  | ok r1 =>
    obtain ⟨hst, her, hlf⟩ := hok1 r1 rfl
    have hfin : ∀ r2, r2 = r1 →
        r2.status = r.status ∧ r2.error = r.error
        ∧ (∀ f, r.logFileId = some f → r2.logFileId = some f) := by
      intro r2 h2
      subst h2
      exact ⟨hst, her, hlf⟩
    cases hp : eff.processJobOut with
    | error m0 =>
      constructor
      · intro r2 b cs h; simp at h
      · intro m rf cs h
        simp at h
        exact hfin rf h.1.2.symm
    | ok result =>
      by_cases hr : result.reschedule = true
      · simp only [hr, if_true]
        constructor
        · intro r2 b cs h
          simp at h
          exact hfin r2 h.1.1.symm
        · intro m rf cs h; simp at h
      · rw [Bool.not_eq_true] at hr
        simp only [hr, Bool.false_eq_true, if_false]
        rcases hrz : r1.request.rhiza with _ | rz
        · cases hu : eff.updateLogDoneOut with
          | error m2 =>
            constructor
            · intro r2 b cs h; simp at h
            · intro m rf cs h
              simp at h
              exact hfin rf h.1.2.symm
          | ok v =>
            constructor
            · intro r2 b cs h
              simp at h
              exact hfin r2 h.1.1.symm
            · intro m rf cs h; simp at h
        · rcases ho : result.outputs with _ | outs
          · cases hu : eff.updateLogDoneOut with
            | error m2 =>
              constructor
              · intro r2 b cs h; simp at h
              · intro m rf cs h
                simp at h
                exact hfin rf h.1.2.symm
            | ok v =>
              constructor
              · intro r2 b cs h
                simp at h
                exact hfin r2 h.1.1.symm
              · intro m rf cs h; simp at h
          · rcases hhb : handoffBlock eff rz with ⟨hres, c2⟩
            cases hres with
            | error m2 =>
              constructor
              · intro r2 b cs h; simp [hhb] at h
              · intro m rf cs h
                simp [hhb] at h
                exact hfin rf h.1.2.symm
            | ok u =>
              cases hu : eff.updateLogDoneOut with
              | error m2 =>
                constructor
                · intro r2 b cs h; simp [hhb] at h
                · intro m rf cs h
                  simp [hhb] at h
                  exact hfin rf h.1.2.symm
              | ok v =>
                constructor
                · intro r2 b cs h
                  simp [hhb] at h
                  exact hfin r2 h.1.1.symm
                · intro m rf cs h; simp [hhb] at h

/-! ## Claim C1: start idempotence -/

/-- C1: a duplicate `start` on an existing JobRecord returns the acceptance
acknowledgment with the job id and leaves the state — record fields and the
armed-timer flag — completely unchanged, for any number of repetitions, so
exactly one JobRecord ever exists; a fresh `start` creates the single record
in `accepted` with no log handle and arms the timer; and the initial
progress-log write inside the wake-up handler is guarded by `logFileId`
being unset: the write call happens only when the handle is absent, and a
present handle is never overwritten. -/
theorem start_idempotent_spec (b : StartBody) (logId now : String) (s : DOState)
    (r : JobRecord) (n : Nat) (eff : AlarmEff) (f : String) :
    (s.record = some r →
      handleStart b logId now s = (⟨true, b.request.job_id⟩, s))
    ∧ (s.record = some r →
      ((fun st => (handleStart b logId now st).2)^[n]) s = s)
    ∧ (s.record = none →
      (handleStart b logId now s).2.record
        = some ⟨b.request, b.config, logId, none, .accepted, now, none⟩
      ∧ (handleStart b logId now s).2.alarmArmed = true)
    ∧ (s.record = some r → ACall.writeLogCall ∈ (alarm eff s).calls →
      r.logFileId = none)
    ∧ (s.record = some r → r.logFileId = some f →
      (alarm eff s).state.record.map (fun r0 => r0.logFileId) = some (some f)) := by
  refine ⟨?_, ?_, ?_, ?_, ?_⟩
  · intro hrec
    simp [handleStart, hrec]
  · intro hrec
    induction n with
    | zero => rfl
    | succ k ih =>
      rw [Function.iterate_succ_apply', ih]
      simp [handleStart, hrec]
  · intro hnone
    constructor <;> simp [handleStart, hnone]
  · intro hrec hmem
    simp only [alarm, hrec] at hmem
    by_cases hterm : r.status = .done ∨ r.status = .error
    · rw [if_pos hterm] at hmem
      simp at hmem
    · rw [if_neg hterm] at hmem
      rcases ht : tryBody eff { r with status := JobStatus.processing } with ⟨res, cs⟩
      have hspec : ∀ c ∈ cs, c = ACall.processJobCall ∨ c = ACall.fetchRhizaCall
          ∨ c = ACall.interpretThenCall ∨ c = ACall.updateHandoffsCall
          ∨ c = ACall.updateLogStatusCall
          ∨ (c = ACall.writeLogCall ∧ ({ r with status := JobStatus.processing } : JobRecord).logFileId = none) := by
        intro c hcmem
        exact tryBody_calls_spec eff _ c (by rw [ht]; exact hcmem)
      rw [ht] at hmem
      rcases res with ⟨m0, rf0⟩ | ⟨r1, b1⟩
      · rw [List.mem_append] at hmem
        rcases hmem with hmem | hmem
        · rcases hspec _ hmem with h | h | h | h | h | ⟨h, hn⟩ <;>
            first
              | exact ACall.noConfusion h
              | exact hn
        · cases hlf : rf0.logFileId.isSome <;> rw [hlf] at hmem <;> simp at hmem
      · cases b1 <;>
          rcases hspec _ hmem with h | h | h | h | h | ⟨h, hn⟩ <;>
          first
            | exact ACall.noConfusion h
            | exact hn
  · intro hrec hf
    simp only [alarm, hrec]
    by_cases hterm : r.status = .done ∨ r.status = .error
    · rw [if_pos hterm]
      simp [hrec, hf]
    · rw [if_neg hterm]
      rcases ht : tryBody eff { r with status := JobStatus.processing } with ⟨res, cs⟩
      have hrp : ({ r with status := JobStatus.processing } : JobRecord).logFileId = some f := hf
      obtain ⟨hok, herr⟩ := tryBody_record eff { r with status := JobStatus.processing }
      rcases res with ⟨m0, rf0⟩ | ⟨r1, b1⟩
      · obtain ⟨-, -, hlf⟩ := herr m0 rf0 cs ht
        simp [hlf f hrp]
      · obtain ⟨-, -, hlf⟩ := hok r1 b1 cs ht
        cases b1 <;> simp [hlf f hrp]

/-- C1 witness: duplicate starts on a started state are no-ops returning the
acknowledgment; the wake-up's log write only happens on an unset handle. -/
theorem start_idempotent_spec_witness :
    handleStart
        ⟨⟨"j1", some "tgt", "coll", "jobs", "api", "test", none, ⟨none⟩⟩,
         ⟨"agent", "1.0", "tok"⟩⟩ "log_2" "t1"
        ⟨some ⟨⟨"j1", some "tgt", "coll", "jobs", "api", "test", none, ⟨none⟩⟩,
          ⟨"agent", "1.0", "tok"⟩, "log_1", none, .accepted, "t0", none⟩, true⟩
      = (⟨true, "j1"⟩,
         ⟨some ⟨⟨"j1", some "tgt", "coll", "jobs", "api", "test", none, ⟨none⟩⟩,
           ⟨"agent", "1.0", "tok"⟩, "log_1", none, .accepted, "t0", none⟩, true⟩)
    ∧ (handleStart
        ⟨⟨"j1", some "tgt", "coll", "jobs", "api", "test", none, ⟨none⟩⟩,
         ⟨"agent", "1.0", "tok"⟩⟩ "log_1" "t0" ⟨none, false⟩).2.record
      = some ⟨⟨"j1", some "tgt", "coll", "jobs", "api", "test", none, ⟨none⟩⟩,
          ⟨"agent", "1.0", "tok"⟩, "log_1", none, .accepted, "t0", none⟩
    ∧ (alarm
        ⟨.ok "f1", .ok ⟨some ["tgt"], false⟩, .ok ⟨none⟩, .ok ⟨"a", none⟩, .ok (), .ok ()⟩
        ⟨some ⟨⟨"j1", some "tgt", "coll", "jobs", "api", "test", none, ⟨none⟩⟩,
          ⟨"agent", "1.0", "tok"⟩, "log_1", some "f0", .processing, "t0", none⟩,
         false⟩).state.record.map (fun r0 => r0.logFileId)
      = some (some "f0") := by
  refine ⟨?_, ?_, ?_⟩
  · exact (start_idempotent_spec
      ⟨⟨"j1", some "tgt", "coll", "jobs", "api", "test", none, ⟨none⟩⟩,
       ⟨"agent", "1.0", "tok"⟩⟩ "log_2" "t1"
      ⟨some ⟨⟨"j1", some "tgt", "coll", "jobs", "api", "test", none, ⟨none⟩⟩,
        ⟨"agent", "1.0", "tok"⟩, "log_1", none, .accepted, "t0", none⟩, true⟩
      ⟨⟨"j1", some "tgt", "coll", "jobs", "api", "test", none, ⟨none⟩⟩,
        ⟨"agent", "1.0", "tok"⟩, "log_1", none, .accepted, "t0", none⟩
      2 ⟨.ok "f1", .ok ⟨some ["tgt"], false⟩, .ok ⟨none⟩, .ok ⟨"a", none⟩, .ok (), .ok ()⟩
      "f0").1 rfl
  · exact ((start_idempotent_spec
      ⟨⟨"j1", some "tgt", "coll", "jobs", "api", "test", none, ⟨none⟩⟩,
       ⟨"agent", "1.0", "tok"⟩⟩ "log_1" "t0" ⟨none, false⟩
      ⟨⟨"j1", some "tgt", "coll", "jobs", "api", "test", none, ⟨none⟩⟩,
        ⟨"agent", "1.0", "tok"⟩, "log_1", none, .accepted, "t0", none⟩
      2 ⟨.ok "f1", .ok ⟨some ["tgt"], false⟩, .ok ⟨none⟩, .ok ⟨"a", none⟩, .ok (), .ok ()⟩
      "f0").2.2.1 rfl).1
  · exact (start_idempotent_spec
      ⟨⟨"j1", some "tgt", "coll", "jobs", "api", "test", none, ⟨none⟩⟩,
       ⟨"agent", "1.0", "tok"⟩⟩ "log_2" "t1"
      ⟨some ⟨⟨"j1", some "tgt", "coll", "jobs", "api", "test", none, ⟨none⟩⟩,
        ⟨"agent", "1.0", "tok"⟩, "log_1", some "f0", .processing, "t0", none⟩, false⟩
      ⟨⟨"j1", some "tgt", "coll", "jobs", "api", "test", none, ⟨none⟩⟩,
        ⟨"agent", "1.0", "tok"⟩, "log_1", some "f0", .processing, "t0", none⟩
      2 ⟨.ok "f1", .ok ⟨some ["tgt"], false⟩, .ok ⟨none⟩, .ok ⟨"a", none⟩, .ok (), .ok ()⟩
      "f0").2.2.2.2 rfl rfl

/-! ## Claim C3: the status state machine -/

/-- C3: `accepted` is the only initial status (the record created by a fresh
`start` is `accepted`, and a duplicate `start` writes nothing); `done` and
`error` are terminal — a wake-up firing on a terminal record performs no
state write and no external call; and the sequence of status writes any
wake-up performs forms a valid chain of the allowed transitions
`accepted → processing`, `processing → processing` (the re-arm, which is the
only transition that leaves the status in place and always re-arms the
timer), `processing → done` and `processing → error`. -/
theorem job_status_state_machine_spec (eff : AlarmEff) (s : DOState)
    (r : JobRecord) (b : StartBody) (logId now : String) :
    (s.record = some r → r.status = .done ∨ r.status = .error →
      alarm eff s = ⟨s, [], []⟩)
    ∧ (s.record = none →
      (handleStart b logId now s).2.record.map (fun r0 => r0.status)
        = some .accepted)
    ∧ (s.record = some r → (handleStart b logId now s).2 = s)
    ∧ (s.record = some r → chainOk r.status (alarm eff s).writes = true)
    ∧ (s.record = some r → r.status ≠ .done → r.status ≠ .error →
      (alarm eff s).state.record.map (fun r0 => r0.status) = some .processing →
      (alarm eff s).state.alarmArmed = true) := by
  refine ⟨?_, ?_, ?_, ?_, ?_⟩
  · intro hrec hterm
    simp only [alarm, hrec]
    rw [if_pos hterm]
  · intro hnone
    simp [handleStart, hnone]
  · intro hrec
    simp [handleStart, hrec]
  · intro hrec
    simp only [alarm, hrec]
    by_cases hterm : r.status = .done ∨ r.status = .error
    · rw [if_pos hterm]
      simp [chainOk]
    · rw [if_neg hterm]
      have hst : r.status = .accepted ∨ r.status = .processing := by
        cases h : r.status <;> simp_all
      rcases ht : tryBody eff { r with status := JobStatus.processing } with ⟨res, cs⟩
      rcases res with ⟨m0, rf0⟩ | ⟨r1, b1⟩
      · rcases hst with h | h <;> simp [h, chainOk, stepOk]
      · cases b1 <;> rcases hst with h | h <;> simp [h, chainOk, stepOk]
  · intro hrec hnd hne hproc
    simp only [alarm, hrec] at hproc ⊢
    rw [if_neg (fun h => h.elim hnd hne)] at hproc ⊢
    rcases ht : tryBody eff { r with status := JobStatus.processing } with ⟨res, cs⟩
    rw [ht] at hproc
    rcases res with ⟨m0, rf0⟩ | ⟨r1, b1⟩
    · simp at hproc
    · cases b1 with
      | false => simp at hproc
      | true => simp

/-- C3 witness: a wake-up on a `done` record is a complete no-op; a fresh
start creates an `accepted` record; a wake-up on an `accepted` record
produces a valid write chain. -/
theorem job_status_state_machine_spec_witness :
    alarm
        ⟨.ok "f1", .ok ⟨some ["tgt"], false⟩, .ok ⟨none⟩, .ok ⟨"a", none⟩, .ok (), .ok ()⟩
        ⟨some ⟨⟨"j1", some "tgt", "coll", "jobs", "api", "test", none, ⟨none⟩⟩,
          ⟨"agent", "1.0", "tok"⟩, "log_1", some "f0", .done, "t0", none⟩, false⟩
      = ⟨⟨some ⟨⟨"j1", some "tgt", "coll", "jobs", "api", "test", none, ⟨none⟩⟩,
          ⟨"agent", "1.0", "tok"⟩, "log_1", some "f0", .done, "t0", none⟩, false⟩, [], []⟩
    ∧ (handleStart
        ⟨⟨"j1", some "tgt", "coll", "jobs", "api", "test", none, ⟨none⟩⟩,
         ⟨"agent", "1.0", "tok"⟩⟩ "log_1" "t0"
        ⟨none, false⟩).2.record.map (fun r0 => r0.status) = some .accepted
    ∧ chainOk .accepted
        (alarm
          ⟨.ok "f1", .ok ⟨some ["tgt"], false⟩, .ok ⟨none⟩, .ok ⟨"a", none⟩, .ok (), .ok ()⟩
          ⟨some ⟨⟨"j1", some "tgt", "coll", "jobs", "api", "test", none, ⟨none⟩⟩,
            ⟨"agent", "1.0", "tok"⟩, "log_1", none, .accepted, "t0", none⟩,
           true⟩).writes = true := by
  refine ⟨?_, ?_, ?_⟩
  · exact (job_status_state_machine_spec
      ⟨.ok "f1", .ok ⟨some ["tgt"], false⟩, .ok ⟨none⟩, .ok ⟨"a", none⟩, .ok (), .ok ()⟩
      ⟨some ⟨⟨"j1", some "tgt", "coll", "jobs", "api", "test", none, ⟨none⟩⟩,
        ⟨"agent", "1.0", "tok"⟩, "log_1", some "f0", .done, "t0", none⟩, false⟩
      ⟨⟨"j1", some "tgt", "coll", "jobs", "api", "test", none, ⟨none⟩⟩,
        ⟨"agent", "1.0", "tok"⟩, "log_1", some "f0", .done, "t0", none⟩
      ⟨⟨"j1", some "tgt", "coll", "jobs", "api", "test", none, ⟨none⟩⟩,
       ⟨"agent", "1.0", "tok"⟩⟩ "log_1" "t0").1 rfl (Or.inl rfl)
  · exact (job_status_state_machine_spec
      ⟨.ok "f1", .ok ⟨some ["tgt"], false⟩, .ok ⟨none⟩, .ok ⟨"a", none⟩, .ok (), .ok ()⟩
      ⟨none, false⟩
      ⟨⟨"j1", some "tgt", "coll", "jobs", "api", "test", none, ⟨none⟩⟩,
        ⟨"agent", "1.0", "tok"⟩, "log_1", none, .accepted, "t0", none⟩
      ⟨⟨"j1", some "tgt", "coll", "jobs", "api", "test", none, ⟨none⟩⟩,
       ⟨"agent", "1.0", "tok"⟩⟩ "log_1" "t0").2.1 rfl
  · exact (job_status_state_machine_spec
      ⟨.ok "f1", .ok ⟨some ["tgt"], false⟩, .ok ⟨none⟩, .ok ⟨"a", none⟩, .ok (), .ok ()⟩
      ⟨some ⟨⟨"j1", some "tgt", "coll", "jobs", "api", "test", none, ⟨none⟩⟩,
        ⟨"agent", "1.0", "tok"⟩, "log_1", none, .accepted, "t0", none⟩, true⟩
      ⟨⟨"j1", some "tgt", "coll", "jobs", "api", "test", none, ⟨none⟩⟩,
        ⟨"agent", "1.0", "tok"⟩, "log_1", none, .accepted, "t0", none⟩
      ⟨⟨"j1", some "tgt", "coll", "jobs", "api", "test", none, ⟨none⟩⟩,
       ⟨"agent", "1.0", "tok"⟩⟩ "log_1" "t0").2.2.2.1 rfl

/-! ## Claim C4: failure conversion -/

/-- C4: whenever the try block of the wake-up handler exits with a thrown
error, the catch block sets `status = error` with the `error` field holding
the failure message, and finalizes the progress log as failed (the
`failKlados` call) exactly when a log handle exists at the failure point; a
pipeline failure in particular lands in this terminal state; the invariant
"`error` is set iff `status = error`" is established by `start` and preserved
by every wake-up; and no wake-up on a live record ends anywhere but `done`,
`error`, or a re-armed `processing` — nothing is silently swallowed. -/
theorem failure_conversion_spec (eff : AlarmEff) (s : DOState) (r rf : JobRecord)
    (m : String) (cs : List ACall) (b : StartBody) (logId now f : String) :
    (s.record = some r → r.status ≠ .done → r.status ≠ .error →
      tryBody eff { r with status := JobStatus.processing } = (.error (m, rf), cs) →
      (alarm eff s).state.record
        = some { rf with status := JobStatus.error, error := some m }
      ∧ (ACall.failKladosCall ∈ (alarm eff s).calls ↔ rf.logFileId.isSome = true))
    ∧ (s.record = some r → r.status ≠ .done → r.status ≠ .error →
      r.logFileId = some f → eff.processJobOut = .error m →
      ∃ r', (alarm eff s).state.record = some r'
        ∧ r'.status = .error ∧ r'.error = some m
        ∧ ACall.failKladosCall ∈ (alarm eff s).calls)
    ∧ (s.record = some r → errorIffStatus r →
      ∀ r', (alarm eff s).state.record = some r' → errorIffStatus r')
    ∧ (s.record = none →
      ∀ r', (handleStart b logId now s).2.record = some r' → errorIffStatus r')
    ∧ (s.record = some r → r.status ≠ .done → r.status ≠ .error →
      ∃ r', (alarm eff s).state.record = some r'
        ∧ (r'.status = .done ∨ r'.status = .error
           ∨ (r'.status = .processing ∧ (alarm eff s).state.alarmArmed = true))) := by
  refine ⟨?_, ?_, ?_, ?_, ?_⟩
  · intro hrec hnd hne ht
    simp only [alarm, hrec]
    rw [if_neg (fun h => h.elim hnd hne), ht]
    refine ⟨rfl, ?_⟩
    have hns : ACall.failKladosCall ∉ cs := by
      intro hmem
      rcases tryBody_calls_spec eff { r with status := JobStatus.processing }
          ACall.failKladosCall (by rw [ht]; exact hmem)
        with h | h | h | h | h | ⟨h, -⟩ <;> exact ACall.noConfusion h
    cases hlf : rf.logFileId.isSome <;> simp [hlf, hns]
  · intro hrec hnd hne hL hp
    have ht : tryBody eff { r with status := JobStatus.processing }
        = (.error (m, { r with status := JobStatus.processing }),
           [ACall.processJobCall]) := by
      simp [tryBody, step1Log, hL, hp]
    simp only [alarm, hrec]
    rw [if_neg (fun h => h.elim hnd hne), ht]
    refine ⟨_, rfl, rfl, rfl, ?_⟩
    simp [hL]
  · intro hrec hinv r' hr'
    simp only [alarm, hrec] at hr'
    by_cases hterm : r.status = .done ∨ r.status = .error
    · rw [if_pos hterm] at hr'
      simp only [hrec] at hr'
      simp at hr'
      rw [← hr']
      exact hinv
    · rw [if_neg hterm] at hr'
      have hnerr : r.error.isSome = false := by
        cases hE : r.error.isSome
        · rfl
        · exact absurd (hinv.mp hE) (fun h => hterm (Or.inr h))
      rcases ht : tryBody eff { r with status := JobStatus.processing } with ⟨res, cs2⟩
      rw [ht] at hr'
      rcases res with ⟨m0, rf0⟩ | ⟨r1, b1⟩
      · simp at hr'
        rw [← hr']
        simp [errorIffStatus]
      · obtain ⟨hst, her, -⟩ :=
          (tryBody_record eff { r with status := JobStatus.processing }).1 r1 b1 cs2 ht
        simp only [] at hst her
        cases b1 with
        | true =>
          simp at hr'
          rw [← hr']
          simp [errorIffStatus, her, hst, hnerr]
        | false =>
          simp at hr'
          rw [← hr']
          simp [errorIffStatus, her, hnerr]
  · intro hnone r' hr'
    simp [handleStart, hnone] at hr'
    rw [← hr']
    simp [errorIffStatus]
  · intro hrec hnd hne
    simp only [alarm, hrec]
    rw [if_neg (fun h => h.elim hnd hne)]
    rcases ht : tryBody eff { r with status := JobStatus.processing } with ⟨res, cs2⟩
    rcases res with ⟨m0, rf0⟩ | ⟨r1, b1⟩
    · exact ⟨_, rfl, Or.inr (Or.inl rfl)⟩
    · obtain ⟨hst, -, -⟩ :=
        (tryBody_record eff { r with status := JobStatus.processing }).1 r1 b1 cs2 ht
      simp only [] at hst
      cases b1 with
      | true => exact ⟨r1, rfl, Or.inr (Or.inr ⟨hst, rfl⟩)⟩
      | false => exact ⟨_, rfl, Or.inl rfl⟩

/-- C4 witness: with a failing pipeline outcome, a processing record with a
log handle lands in `status = error` with the message recorded and the log
finalized as failed; the `error`-iff-`status` invariant holds of the state a
successful wake-up produces. -/
theorem failure_conversion_spec_witness :
    (alarm
        ⟨.ok "f1", .error "boom", .ok ⟨none⟩, .ok ⟨"a", none⟩, .ok (), .ok ()⟩
        ⟨some ⟨⟨"j1", some "tgt", "coll", "jobs", "api", "test", none, ⟨none⟩⟩,
          ⟨"agent", "1.0", "tok"⟩, "log_1", none, .accepted, "t0", none⟩,
         true⟩).state.record
      = some ⟨⟨"j1", some "tgt", "coll", "jobs", "api", "test", none, ⟨none⟩⟩,
          ⟨"agent", "1.0", "tok"⟩, "log_1", some "f1", .error, "t0", some "boom"⟩
    ∧ ACall.failKladosCall ∈
        (alarm
          ⟨.ok "f1", .error "boom", .ok ⟨none⟩, .ok ⟨"a", none⟩, .ok (), .ok ()⟩
          ⟨some ⟨⟨"j1", some "tgt", "coll", "jobs", "api", "test", none, ⟨none⟩⟩,
            ⟨"agent", "1.0", "tok"⟩, "log_1", none, .accepted, "t0", none⟩,
           true⟩).calls
    ∧ errorIffStatus ⟨⟨"j1", some "tgt", "coll", "jobs", "api", "test", none, ⟨none⟩⟩,
        ⟨"agent", "1.0", "tok"⟩, "log_1", some "f1", .done, "t0", none⟩ := by
  have h := failure_conversion_spec
      ⟨.ok "f1", .error "boom", .ok ⟨none⟩, .ok ⟨"a", none⟩, .ok (), .ok ()⟩
      ⟨some ⟨⟨"j1", some "tgt", "coll", "jobs", "api", "test", none, ⟨none⟩⟩,
        ⟨"agent", "1.0", "tok"⟩, "log_1", none, .accepted, "t0", none⟩, true⟩
      ⟨⟨"j1", some "tgt", "coll", "jobs", "api", "test", none, ⟨none⟩⟩,
        ⟨"agent", "1.0", "tok"⟩, "log_1", none, .accepted, "t0", none⟩
      ⟨⟨"j1", some "tgt", "coll", "jobs", "api", "test", none, ⟨none⟩⟩,
        ⟨"agent", "1.0", "tok"⟩, "log_1", some "f1", .processing, "t0", none⟩
      "boom" [ACall.writeLogCall, ACall.processJobCall]
      ⟨⟨"j1", some "tgt", "coll", "jobs", "api", "test", none, ⟨none⟩⟩,
       ⟨"agent", "1.0", "tok"⟩⟩ "log_1" "t0" "f1"
  obtain ⟨h1, -, -, -, -⟩ := h
  have h2 := failure_conversion_spec
      ⟨.ok "f1", .ok ⟨some ["tgt"], false⟩, .ok ⟨none⟩, .ok ⟨"a", none⟩, .ok (), .ok ()⟩
      ⟨some ⟨⟨"j1", some "tgt", "coll", "jobs", "api", "test", none, ⟨none⟩⟩,
        ⟨"agent", "1.0", "tok"⟩, "log_1", none, .accepted, "t0", none⟩, true⟩
      ⟨⟨"j1", some "tgt", "coll", "jobs", "api", "test", none, ⟨none⟩⟩,
        ⟨"agent", "1.0", "tok"⟩, "log_1", none, .accepted, "t0", none⟩
      ⟨⟨"j1", some "tgt", "coll", "jobs", "api", "test", none, ⟨none⟩⟩,
        ⟨"agent", "1.0", "tok"⟩, "log_1", some "f1", .processing, "t0", none⟩
      "boom" [ACall.writeLogCall, ACall.processJobCall]
      ⟨⟨"j1", some "tgt", "coll", "jobs", "api", "test", none, ⟨none⟩⟩,
       ⟨"agent", "1.0", "tok"⟩⟩ "log_1" "t0" "f1"
  obtain ⟨ha, hb⟩ := h1 rfl (by decide) (by decide) rfl
  refine ⟨ha, hb.mpr rfl, ?_⟩
  exact h2.2.2.1 rfl (by simp [errorIffStatus]) _ rfl

end OcrWorker
